import Mathlib

/-!
# Verification of the pdfannotation retrieval-and-synthesis core

Shallow embedding, in Lean 4, of the core of the `Muthaharshaik/pdfannotation`
widget: the minimal PDF binary writer shared by `src/utils/docx-converter.js`
and `src/utils/excel-csv-converter.js`, their paginators and fallback paths,
and the S3 key encoding / SigV4 signing / multi-strategy download logic of
`SecureS3Downloader`.

JavaScript strings are modelled as Lean `String`s.  All strings that reach the
PDF writer are ASCII (the converters' `cleanText` replaces every character
outside `0x20`-`0x7E`, newline excepted, before assembly), so a JS string's
`.length` (UTF-16 units), its UTF-8 byte length, and the Lean character count
agree; the byte stream produced by `TextEncoder().encode` is modelled as the
list of character codes, `s.data.map Char.toNat`.
-/

namespace PdfAnnotation

/-! ## Generic string helpers -/

/-- Concatenation of a list of strings, in order (the repeated `pdf += part`
accumulation of the JS code). -/
def strJoin : List String → String
  | [] => ""
  | s :: r => s ++ strJoin r

/-- `s.substring(0, n)` on a JS string: the first `n` characters. -/
def jsSubstring (s : String) (n : Nat) : String := String.mk (s.data.take n)

/-- `str.padStart(10, '0')` on the decimal rendering of a nat
(docx-converter.js line 265 / excel-csv-converter.js line 346). -/
def padStart10 (n : Nat) : String :=
  String.mk (List.replicate (10 - (toString n).length) '0') ++ toString n

/-- The byte stream of an ASCII string (`TextEncoder().encode`: UTF-8, which
on ASCII text is one byte per character, the character's code). -/
def asciiBytes (s : String) : List Nat := s.data.map Char.toNat

/-! ## The PDF assembler (`createPdfStructure`)

`docx-converter.js` lines 182-276 and `excel-csv-converter.js` lines 256-357
share one skeleton: build one content stream per page, then concatenate
catalog (id 1), page tree (id 2) and page/content-stream pairs (ids 3,4,5,…)
while recording each object's start position, and close with a
cross-reference table and trailer.  The shared skeleton is embedded once,
parameterised by the two converters' differing content streams, media box and
font; each converter's `createPdfStructure` instantiates it. -/

/-- Per-character PDF string escaping.  The JS applies five sequential global
replaces (docx-converter.js lines 203-208, `escapePdfString` in
excel-csv-converter.js lines 364-369): `\` is doubled first, then `(`, `)`,
CR and LF each gain a fresh backslash; since no later replace touches the
characters introduced by an earlier one, the net effect is this per-character
map. -/
def escMap (c : Char) : List Char :=
  if c = '\\' then ['\\', '\\']
  else if c = '(' then ['\\', '(']
  else if c = ')' then ['\\', ')']
  else if c = '\r' then ['\\', 'r']
  else if c = '\n' then ['\\', 'n']
  else [c]

/-- Escape a line and cap it at `cap` characters (`.substring(0, 75)` for the
docx converter, `.substring(0, 90)` for the excel converter). -/
def escapePdfString (cap : Nat) (line : String) : String :=
  String.mk (((line.data.map escMap).flatten).take cap)

/-- One `Tj`/`Td` pair of a content stream:
`(${escapedLine}) Tj\n0 -${lineHeight} Td\n`. -/
def showLine (lineHeight cap : Nat) (line : String) : String :=
  "(" ++ escapePdfString cap line ++ ") Tj\n0 -" ++ toString lineHeight ++ " Td\n"

/-- Content stream of one docx page (docx-converter.js lines 197-214):
fixed prologue, one show-text operation per line, `ET`. -/
def docxContentStream (pageLines : List String) : String :=
  "BT\n/F1 12 Tf\n50 750 Td\n" ++ strJoin (pageLines.map (showLine 14 75)) ++ "ET"

/-- `Math.ceil(lines.length / maxLinesPerPage) || 1`
(docx-converter.js line 187, excel-csv-converter.js line 261). -/
def jsTotalPages (n m : Nat) : Nat :=
  if (n + m - 1) / m = 0 then 1 else (n + m - 1) / m

/-- `lines.slice(pageNum*m, min(pageNum*m + m, lines.length))`. -/
def pageSlice (m : Nat) (lines : List String) (pageNum : Nat) : List String :=
  (lines.drop (pageNum * m)).take m

/-- docx: `maxLinesPerPage = Math.floor((841.89 - 2*50) / 14) = 52`. -/
def maxLinesPerPageDocx : Nat := 52

/-- excel: `maxLinesPerPage = Math.floor((595 - 2*40) / 16) = 32`. -/
def maxLinesPerPageExcel : Nat := 32

/-- The per-page content streams of the docx converter. -/
def docxContentStreams (lines : List String) : List String :=
  (List.range (jsTotalPages lines.length maxLinesPerPageDocx)).map
    (fun p => docxContentStream (pageSlice maxLinesPerPageDocx lines p))

/-- Content stream of one excel page (excel-csv-converter.js lines 268-297):
landscape prologue, a title on the first page, a page counter when the
document has several pages, then the table lines. -/
def excelContentStream (fileName : String) (totalPages p : Nat)
    (pageLines : List String) : String :=
  "BT\n/F1 12 Tf\n50 520 Td\n"
    ++ (if p = 0 then
          "(Excel/CSV Table: "
            ++ escapePdfString 90 (if fileName = "" then "Converted File" else fileName)
            ++ ") Tj\n0 -20 Td\n" ++ "0 -10 Td\n"
        else "")
    ++ (if 1 < totalPages then
          "/F1 10 Tf\n(Page " ++ toString (p + 1) ++ " of " ++ toString totalPages
            ++ ") Tj\n0 -15 Td\n/F1 10 Tf\n"
        else "")
    ++ strJoin (pageLines.map (showLine 16 90)) ++ "ET"

/-- The per-page content streams of the excel converter. -/
def excelContentStreams (fileName : String) (lines : List String) : List String :=
  (List.range (jsTotalPages lines.length maxLinesPerPageExcel)).map
    (fun p => excelContentStream fileName (jsTotalPages lines.length maxLinesPerPageExcel) p
      (pageSlice maxLinesPerPageExcel lines p))

/-- Object 1 (docx-converter.js line 225 / excel-csv-converter.js line 306). -/
def catalogContent : String := "1 0 obj\n<<\n/Type /Catalog\n/Pages 2 0 R\n>>\nendobj\n"

/-- `pageRefs`: `"${3 + i*2} 0 R"` for each page. -/
def pageRefs (totalPages : Nat) : List String :=
  (List.range totalPages).map (fun i => toString (3 + i * 2) ++ " 0 R")

/-- Object 2, the page tree (docx-converter.js line 235 /
excel-csv-converter.js line 316). -/
def pagesContent (totalPages : Nat) : String :=
  "2 0 obj\n<<\n/Type /Pages\n/Kids [" ++ String.intercalate " " (pageRefs totalPages)
    ++ "]\n/Count " ++ toString totalPages ++ "\n>>\nendobj\n"

/-- A page object (docx-converter.js line 247 / excel-csv-converter.js
line 328), parameterised by the converters' media box and base font. -/
def pageObjContent (mediaBox baseFont : String) (pageObjId contentObjId : Nat) : String :=
  toString pageObjId ++ " 0 obj\n<<\n/Type /Page\n/Parent 2 0 R\n/MediaBox ["
    ++ mediaBox ++ "]\n/Resources <<\n/Font <<\n/F1 <<\n/Type /Font\n/Subtype /Type1\n/BaseFont /"
    ++ baseFont ++ "\n>>\n>>\n>>\n/Contents " ++ toString contentObjId ++ " 0 R\n>>\nendobj\n"

/-- A content-stream object (docx-converter.js line 253 /
excel-csv-converter.js line 334); its declared `/Length` is
`contentStream.length`. -/
def streamObjContent (contentObjId : Nat) (cs : String) : String :=
  toString contentObjId ++ " 0 obj\n<<\n/Length " ++ toString cs.length
    ++ "\n>>\nstream\n" ++ cs ++ "\nendstream\nendobj\n"

/-- The page/content-stream object pairs, page `p` owning ids `3+2p`/`4+2p`. -/
def pagePairs (mediaBox baseFont : String) (streams : List String) : List (List String) :=
  (List.range streams.length).map (fun p =>
    [pageObjContent mediaBox baseFont (3 + p * 2) (4 + p * 2),
     streamObjContent (4 + p * 2) (streams.getD p "")])

/-- The ordered object bodies: catalog, page tree, then the pairs. -/
def pdfObjects (mediaBox baseFont : String) (streams : List String) : List String :=
  catalogContent :: pagesContent streams.length :: (pagePairs mediaBox baseFont streams).flatten

/-- Byte offsets recorded by the assembly loop: the JS pushes `currentPos`
before appending each object and then advances it by the object's length. -/
def offsetsFrom (pos : Nat) : List String → List Nat
  | [] => []
  | s :: ss => pos :: offsetsFrom (pos + s.length) ss

/-- `'%PDF-1.4\n'`, the fixed header both converters start from. -/
def pdfHeader : String := "%PDF-1.4\n"

/-- The rendered cross-reference table (docx-converter.js lines 260-266). -/
def xrefSection (xs : List Nat) : String :=
  "xref\n0 " ++ toString (xs.length + 1) ++ "\n0000000000 65535 f \n"
    ++ strJoin (xs.map (fun p => padStart10 p ++ " 00000 n \n"))

/-- The trailer (docx-converter.js lines 269-273). -/
def trailerSection (count xrefPos : Nat) : String :=
  "trailer\n<<\n/Size " ++ toString (count + 1)
    ++ "\n/Root 1 0 R\n>>\nstartxref\n" ++ toString xrefPos ++ "\n%%EOF\n"

/-- The cross-reference offsets of an assembled document. -/
def xrefEntries (objs : List String) : List Nat := offsetsFrom pdfHeader.length objs

/-- Header plus concatenated objects. -/
def pdfBody (objs : List String) : String := pdfHeader ++ strJoin objs

/-- The shared assembly skeleton: header, objects, xref, trailer. -/
def assemblePdf (objs : List String) : String :=
  pdfBody objs ++ xrefSection (xrefEntries objs)
    ++ trailerSection (xrefEntries objs).length (pdfBody objs).length

/-- The docx converter's object list (portrait media box, Helvetica). -/
def docxObjs (lines : List String) : List String :=
  pdfObjects "0 0 595.28 841.89" "Helvetica" (docxContentStreams lines)

/-- `createPdfStructure` of docx-converter.js (lines 182-276), as the text the
converter feeds to `TextEncoder().encode`. -/
def docxCreatePdfStructure (lines : List String) : String :=
  assemblePdf (docxObjs lines)

/-- The excel converter's object list (landscape media box, Courier). -/
def excelObjs (fileName : String) (lines : List String) : List String :=
  pdfObjects "0 0 842 595" "Courier" (excelContentStreams fileName lines)

/-- `createPdfStructure` of excel-csv-converter.js (lines 256-357). -/
def excelCreatePdfStructure (lines : List String) (fileName : String) : String :=
  assemblePdf (excelObjs fileName lines)

/-! ## The paginators (`splitIntoLines`)

docx-converter.js lines 141-177 and excel-csv-converter.js lines 209-251.
Both split the text on newlines, emit a blank line for blank paragraphs, and
word-wrap the rest greedily; the excel variant passes table lines (containing
`|` or `+`) through untouched and hardcodes a 90-character width. -/

/-- JS `text.split('\n')`: pieces between newline separators, keeping empty
pieces (`"".split('\n') = [""]`). -/
def splitLinesAux : List Char → List Char → List String
  | [], acc => [String.mk acc.reverse]
  | c :: cs, acc =>
    if c = '\n' then String.mk acc.reverse :: splitLinesAux cs []
    else splitLinesAux cs (c :: acc)

/-- JS `text.split('\n')`. -/
def jsSplitNewline (s : String) : List String := splitLinesAux s.data []

/-- JS `String.prototype.trim()`: strip leading and trailing whitespace
(JS `\s` corresponds to `Char.isWhitespace` on the ASCII text handled
here). -/
def jsTrim (s : String) : String :=
  String.mk (((s.data.dropWhile Char.isWhitespace).reverse.dropWhile
    Char.isWhitespace).reverse)

/-- `trimmed.split(/\s+/)` on a trimmed string: the maximal runs of
non-whitespace characters. -/
def splitWordsAux : List Char → List Char → List String
  | [], acc => if acc.isEmpty then [] else [String.mk acc.reverse]
  | c :: cs, acc =>
    if c.isWhitespace then
      (if acc.isEmpty then splitWordsAux cs []
       else String.mk acc.reverse :: splitWordsAux cs [])
    else splitWordsAux cs (c :: acc)

/-- `paragraph.trim().split(/\s+/)` for a trimmed paragraph. -/
def splitWords (s : String) : List String := splitWordsAux s.data []

/-- The greedy word-accumulation loop of `splitIntoLines` (docx-converter.js
lines 155-169): returns the pushed lines and the pending `currentLine`.  The
`testLine` of the JS is `currentLine ? currentLine + " " + word : word`; on
overflow, a non-empty `currentLine` is pushed and the word (truncated when
longer than the limit) becomes the new `currentLine`, while with an empty
`currentLine` the truncated word is pushed directly. -/
def wrapLoop (maxLength : Nat) : List String → String → List String × String
  | [], currentLine => ([], currentLine)
  | w :: ws, currentLine =>
    if (if currentLine = "" then w else currentLine ++ " " ++ w).length ≤ maxLength then
      wrapLoop maxLength ws (if currentLine = "" then w else currentLine ++ " " ++ w)
    else if currentLine = "" then
      (jsSubstring w maxLength :: (wrapLoop maxLength ws "").1,
       (wrapLoop maxLength ws "").2)
    else
      (currentLine ::
        (wrapLoop maxLength ws
          (if w.length ≤ maxLength then w else jsSubstring w maxLength)).1,
       (wrapLoop maxLength ws
          (if w.length ≤ maxLength then w else jsSubstring w maxLength)).2)

/-- After the loop, the pending `currentLine` is pushed when non-empty
(docx-converter.js lines 171-173). -/
def flushPending (r : List String × String) : List String :=
  r.1 ++ (if r.2 ≠ "" then [r.2] else [])

/-- One non-blank paragraph of `splitIntoLines`: run the loop from an empty
`currentLine`, then flush. -/
def wrapParagraph (maxLength : Nat) (words : List String) : List String :=
  flushPending (wrapLoop maxLength words "")

/-- `splitIntoLines` of docx-converter.js (lines 141-177), with
`maxLength = this.options.maxCharsPerLine`. -/
def splitIntoLinesDocx (maxLength : Nat) (text : String) : List String :=
  ((jsSplitNewline text).map (fun paragraph =>
    if jsTrim paragraph = "" then [""]
    else wrapParagraph maxLength (splitWords (jsTrim paragraph)))).flatten

/-- `splitIntoLines` of excel-csv-converter.js (lines 209-251): table lines
(containing `|` or `+`) pass through trimmed and unwrapped, other paragraphs
wrap at 90 characters. -/
def splitIntoLinesExcel (text : String) : List String :=
  ((jsSplitNewline text).map (fun paragraph =>
    if jsTrim paragraph = "" then [""]
    else if paragraph.data.contains '|' || paragraph.data.contains '+' then
      [jsTrim paragraph]
    else wrapParagraph 90 (splitWords (jsTrim paragraph)))).flatten

/-! ## The multi-strategy downloader (`SecureS3Downloader.downloadFile`)

part_000 lines 53-94: the strategies array is, in order,
`downloadWithPresignedUrl`, `downloadWithDirectSigning`,
`downloadWithSimpleAuth`.  Each strategy attempt either resolves to a
download result or throws an error message; the loop keeps the last error,
re-throws immediately when the message contains `'403'` or `'Access denied'`,
and after exhausting the list throws the last error (or a generic message).
A strategy attempt is modelled by the `Except String DR` outcome that running
it would produce; `downloadFile` returns the loop result together with the
number of strategies attempted. -/

/-- Substring test (JS `String.prototype.includes`). -/
def containsSub (pat : List Char) : List Char → Bool
  | [] => pat.isEmpty
  | c :: t => pat.isPrefixOf (c :: t) || containsSub pat t

/-- `haystack.includes(needle)`. -/
def jsIncludes (s sub : String) : Bool := containsSub sub.data s.data

/-- `error.message.includes('403') || error.message.includes('Access denied')`
(part_000 line 82). -/
def isAuthError (msg : String) : Bool :=
  jsIncludes msg "403" || jsIncludes msg "Access denied"

/-- The strategy loop of `downloadFile` (part_000 lines 66-88), over the
outcome of each remaining strategy and the current `lastError`; the second
component counts the strategies attempted. -/
def downloadLoop {DR : Type} : List (Except String DR) → Option String →
    Except String DR × Nat
  | [], lastError => (Except.error (lastError.getD "All download methods failed"), 0)
  | r :: rs, _ =>
    match r with
    | Except.ok v => (Except.ok v, 1)
    | Except.error e =>
      if isAuthError e then (Except.error e, 1)
      else ((downloadLoop rs (some e)).1, (downloadLoop rs (some e)).2 + 1)

/-- `downloadFile`, with the three strategies' outcomes in their fixed order:
presigned-URL GET, header-signed GET, basic-auth GET. -/
def downloadFile {DR : Type} (presigned directSigned simpleAuth : Except String DR) :
    Except String DR × Nat :=
  downloadLoop [presigned, directSigned, simpleAuth] none

/-- `fetchWithRetry` (part_000 lines 217-228) over the outcome of each fetch
attempt (at most `retries = 3` entries): the first attempt that does not
throw is returned; when every attempt throws, the last attempt's error
propagates.  (The empty list, unreachable for `retries = 3`, yields the JS
`undefined` return, modelled as an error.) -/
def fetchWithRetry {Resp : Type} : List (Except String Resp) → Except String Resp
  | [] => Except.error "undefined"
  | [a] => a
  | a :: rest =>
    match a with
    | Except.ok v => Except.ok v
    | Except.error _ => fetchWithRetry rest

/-! ## Converter error flow (`convertToPdf` / `createErrorPdf`)

docx-converter.js lines 21-50 and 281-292, excel-csv-converter.js lines
28-68 and 376-387.  `convertToPdf` extracts text, rejects empty text, and
assembles a PDF; any failure up to that point is caught and turned into a
diagnostic PDF by `createErrorPdf`, which itself falls back to a hardcoded
minimal PDF if assembly of the diagnostic text throws.  Extraction and
assembly are effectful in the JS (they may throw); each is modelled by the
`Except String` outcome running it would produce, with assembly a function
`String → Except String String` from the text to the produced blob content
(`createPdfManually` / `createSimpleTablePdf`).  In the JS, `createErrorPdf`
cannot throw — its catch branch only builds a `Blob` from a constant string —
so the `fallbackError` re-throw in `convertToPdf` is unreachable and
`convertToPdf`'s fallback path is total. -/

/-- The diagnostic text of docx `createErrorPdf` (docx-converter.js
line 283). -/
def docxErrorText (errorMessage : String) : String :=
  "DOCX Conversion Error\n\nThe DOCX file could not be converted to PDF.\n\nError: "
    ++ errorMessage
    ++ "\n\nThis may happen with:\n• Complex formatting\n• Password-protected files\n• Corrupted documents\n\nPlease try:\n• Converting to PDF manually\n• Using simpler formatting\n• Checking the original file"

/-- The hardcoded minimal PDF of docx `createErrorPdf` (docx-converter.js
line 289). -/
def docxMinimalPdf : String :=
  "%PDF-1.4\n1 0 obj\n<<\n/Type /Catalog\n/Pages 2 0 R\n>>\nendobj\n2 0 obj\n<<\n/Type /Pages\n/Kids [3 0 R]\n/Count 1\n>>\nendobj\n3 0 obj\n<<\n/Type /Page\n/Parent 2 0 R\n/MediaBox [0 0 595.28 841.89]\n/Resources <<\n/Font <<\n/F1 <<\n/Type /Font\n/Subtype /Type1\n/BaseFont /Helvetica\n>>\n>>\n>>\n/Contents 4 0 R\n>>\nendobj\n4 0 obj\n<<\n/Length 53\n>>\nstream\nBT\n/F1 12 Tf\n50 750 Td\n(DOCX Conversion Failed) Tj\nET\nendstream\nendobj\nxref\n0 5\n0000000000 65535 f \n0000000009 00000 n \n0000000058 00000 n \n0000000115 00000 n \n0000000344 00000 n \ntrailer\n<<\n/Size 5\n/Root 1 0 R\n>>\nstartxref\n447\n%%EOF"

/-- docx `createErrorPdf` (lines 281-292): assemble the diagnostic text; on
failure return the minimal PDF. -/
def docxCreateErrorPdf (assemble : String → Except String String)
    (errorMessage : String) : String :=
  match assemble (docxErrorText errorMessage) with
  | Except.ok pdf => pdf
  | Except.error _ => docxMinimalPdf

/-- docx `convertToPdf` (lines 21-50): on extraction failure or empty
extracted text (`!textContent || textContent.trim().length === 0`), and on
assembly failure, the caught error's message is routed to
`createErrorPdf`. -/
def docxConvertToPdf (extractResult : Except String String)
    (assemble : String → Except String String) : Except String String :=
  match (match extractResult with
    | Except.error e => Except.error e
    | Except.ok t =>
      if jsTrim t = "" then Except.error "No text content found in DOCX file"
      else assemble t) with
  | Except.ok pdf => Except.ok pdf
  | Except.error e => Except.ok (docxCreateErrorPdf assemble e)

/-- The diagnostic text of excel `createErrorPdf` (excel-csv-converter.js
line 378), with `${fileName || 'Unknown'}`. -/
def excelErrorText (errorMessage fileName : String) : String :=
  "Excel/CSV Table Conversion Error\n\nThe Excel/CSV file could not be converted to PDF.\n\nFile: "
    ++ (if fileName = "" then "Unknown" else fileName)
    ++ "\nError: " ++ errorMessage
    ++ "\n\nThis may happen with:\n• Complex Excel formulas\n• Large files with many columns\n• Corrupted spreadsheet files\n• Unsupported Excel features\n\nPlease try:\n• Converting to PDF manually\n• Using simpler Excel/CSV format\n• Reducing file size\n• Checking the original file"

/-- The hardcoded minimal PDF of excel `createErrorPdf`
(excel-csv-converter.js line 384). -/
def excelMinimalPdf : String :=
  "%PDF-1.4\n1 0 obj\n<<\n/Type /Catalog\n/Pages 2 0 R\n>>\nendobj\n2 0 obj\n<<\n/Type /Pages\n/Kids [3 0 R]\n/Count 1\n>>\nendobj\n3 0 obj\n<<\n/Type /Page\n/Parent 2 0 R\n/MediaBox [0 0 842 595]\n/Resources <<\n/Font <<\n/F1 <<\n/Type /Font\n/Subtype /Type1\n/BaseFont /Courier\n>>\n>>\n>>\n/Contents 4 0 R\n>>\nendobj\n4 0 obj\n<<\n/Length 58\n>>\nstream\nBT\n/F1 12 Tf\n50 520 Td\n(Excel/CSV Table Conversion Failed) Tj\nET\nendstream\nendobj\nxref\n0 5\n0000000000 65535 f \n0000000009 00000 n \n0000000058 00000 n \n0000000115 00000 n \n0000000356 00000 n \ntrailer\n<<\n/Size 5\n/Root 1 0 R\n>>\nstartxref\n464\n%%EOF"

/-- excel `createErrorPdf` (lines 376-387): assemble the diagnostic text
(`createSimpleTablePdf` with the same file name); on failure return the
minimal PDF. -/
def excelCreateErrorPdf (assemble : String → Except String String)
    (errorMessage fileName : String) : String :=
  match assemble (excelErrorText errorMessage fileName) with
  | Except.ok pdf => pdf
  | Except.error _ => excelMinimalPdf

/-- excel `convertToPdf` (lines 28-68): parse/extract outcome, empty-data
check (`'No data found in file'`), assembly, and the catch-all fallback. -/
def excelConvertToPdf (extractResult : Except String String)
    (assemble : String → Except String String) (fileName : String) :
    Except String String :=
  match (match extractResult with
    | Except.error e => Except.error e
    | Except.ok t =>
      if jsTrim t = "" then Except.error "No data found in file"
      else assemble t) with
  | Except.ok pdf => Except.ok pdf
  | Except.error e => Except.ok (excelCreateErrorPdf assemble e fileName)

/-! ## Table text extraction (`extractSimpleTableText`)

excel-csv-converter.js lines 97-167.  A workbook is modelled as the ordered
list of its sheets, each a name together with the row grid that
`XLSX.utils.sheet_to_json(…, {header: 1, raw: false, defval: "",
blankrows: false})` yields: a list of rows, each a list of cell strings. -/

/-- Cell formatting (lines 130-134): `String(cell || '').trim()`, truncated
to 15 characters plus `'...'` when longer than 18. -/
def formatCell (cell : String) : String :=
  if 18 < (jsTrim cell).length then jsSubstring (jsTrim cell) 15 ++ "..."
  else jsTrim cell

/-- `cell.padEnd(20, ' ')` (line 137). -/
def padEnd20 (s : String) : String :=
  s ++ String.mk (List.replicate (20 - s.length) ' ')

/-- One rendered table row (lines 127-138): first `maxColumnsPerPage = 6`
cells, formatted, padded, joined with `'| '` and wrapped `'| ' … '|\n'`. -/
def renderRow (row : List String) : String :=
  "| " ++ String.intercalate "| " ((row.take 6).map (fun c => padEnd20 (formatCell c)))
    ++ "|\n"

/-- A separator line (lines 141-144 after the header, lines 149-153 as the
bottom border): one 20-dash block per retained cell, joined with `'+-'` and
wrapped `'+-' … '+\n'`. -/
def sepRow (row : List String) : String :=
  "+-" ++ String.intercalate "+-" ((row.take 6).map
      (fun _ => String.mk (List.replicate 20 '-')))
    ++ "+\n"

/-- The indexed `forEach` over a sheet's rows (lines 124-146): non-empty rows
render a table line, the row at index 0 additionally a separator. -/
def renderRows : Nat → List (List String) → String
  | _, [] => ""
  | idx, row :: rest =>
    (if row.length ≠ 0 then renderRow row ++ (if idx = 0 then sepRow row else "") else "")
      ++ renderRows (idx + 1) rest

/-- One sheet's contribution (lines 101-158): a banner when the workbook has
several sheets, then — if the sheet has rows — the rendered rows, a bottom
border when it has more than one row (built from the last row), and a blank
line. -/
def sheetText (multi : Bool) (sheetName : String) (rows : List (List String)) : String :=
  (if multi then "\n=== Sheet: " ++ sheetName ++ " ===\n\n" else "")
    ++ (if rows.length ≠ 0 then
          renderRows 0 rows
            ++ (if 1 < rows.length then sepRow ((rows.getLast?).getD []) else "")
            ++ "\n"
        else "")

/-- `extractSimpleTableText` (lines 97-167): concatenate the sheet blocks in
order and `trim()` the result. -/
def extractSimpleTableText (sheets : List (String × List (List String))) : String :=
  jsTrim (strJoin (sheets.map (fun s => sheetText (1 < sheets.length) s.1 s.2)))

/-! ## S3 key encoding (`SecureS3Downloader.encodeS3Key`)

part_000 lines 15-51.  The key is first best-effort percent-decoded
(`decodeURIComponent`, falling back to the raw key when decoding throws),
split on `/`, and each segment passed through `encodeURIComponent`; then the
characters `! ' ( ) *` — the only non-unreserved characters
`encodeURIComponent` leaves alone — are replaced by their uppercase `%XX`
forms (lines 32-34).  The remaining replace chain of lines 36-47
(`( ) [ ] \x7b \x7d # ? & = +` and `%20`) is a no-op at that point: every one
of those characters other than the parentheses was already percent-encoded
by `encodeURIComponent`, and the parentheses by the first replace.  The net
per-character effect is `s3EncodeChar`: characters in the unreserved set
`A-Z a-z 0-9 - _ . ~` pass through, every other character is percent-encoded
from its UTF-8 bytes with uppercase hex. -/

/-- Uppercase hex digit for `n < 16`. -/
def hexDigitU (n : Nat) : Char :=
  if n < 10 then Char.ofNat (48 + n) else Char.ofNat (55 + n)

/-- UTF-8 bytes of a character (what percent-encoding encodes). -/
def utf8Bytes (c : Char) : List Nat :=
  let n := c.toNat
  if n < 128 then [n]
  else if n < 2048 then [192 + n / 64, 128 + n % 64]
  else if n < 65536 then [224 + n / 4096, 128 + (n / 64) % 64, 128 + n % 64]
  else [240 + n / 262144, 128 + (n / 4096) % 64, 128 + (n / 64) % 64, 128 + n % 64]

/-- `%XX` with uppercase hex. -/
def percentByte (b : Nat) : List Char :=
  ['%', hexDigitU (b / 16), hexDigitU (b % 16)]

/-- The characters `encodeS3Key` leaves unencoded inside a path segment. -/
def keptChar (c : Char) : Bool :=
  ('A' ≤ c && c ≤ 'Z') || ('a' ≤ c && c ≤ 'z') || ('0' ≤ c && c ≤ '9')
    || c == '-' || c == '_' || c == '.' || c == '~'

/-- Net per-character encoding of one path-segment character. -/
def s3EncodeChar (c : Char) : List Char :=
  if keptChar c then [c] else ((utf8Bytes c).map percentByte).flatten

/-- `decodedKey.split('/')` (part_000 line 25). -/
def splitSlash : List Char → List (List Char)
  | [] => [[]]
  | c :: rest =>
    if c = '/' then [] :: splitSlash rest
    else
      match splitSlash rest with
      | [] => [[c]]
      | p :: ps => (c :: p) :: ps

/-- `encodedParts.join('/')` (part_000 line 50). -/
def joinSlash : List (List Char) → List Char
  | [] => []
  | [p] => p
  | p :: ps => p ++ '/' :: joinSlash ps

/-- Value of a hex digit, either case. -/
def hexVal (c : Char) : Option Nat :=
  if '0' ≤ c && c ≤ '9' then some (c.toNat - 48)
  else if 'A' ≤ c && c ≤ 'F' then some (c.toNat - 55)
  else if 'a' ≤ c && c ≤ 'f' then some (c.toNat - 87)
  else none

/-- Percent-decoding on the ASCII range (the range this development
exercises): models `decodeURIComponent`, returning `none` where the JS
throws `URIError` on malformed input; decoded bytes ≥ 128 (multi-byte UTF-8
sequences) are outside the modelled range. -/
def percentDecode : List Char → Option (List Char)
  | [] => some []
  | c :: rest =>
    if c = '%' then
      match rest with
      | h1 :: h2 :: rest2 =>
        match hexVal h1, hexVal h2 with
        | some a, some b =>
          if a * 16 + b < 128 then
            (percentDecode rest2).map (fun l => Char.ofNat (a * 16 + b) :: l)
          else none
        | _, _ => none
      | _ => none
    else (percentDecode rest).map (fun l => c :: l)

/-- `encodeS3Key` (part_000 lines 15-51): best-effort decode, split on `/`,
encode each segment, rejoin. -/
def encodeS3Key (key : String) : String :=
  let decodedKey := match percentDecode key.data with
    | some d => d
    | none => key.data
  String.mk (joinSlash ((splitSlash decodedKey).map
    (fun part => (part.map s3EncodeChar).flatten)))

/-- The alphabet over which the round-trip claim is stated: the unreserved
ASCII characters (letters, digits, `- _ . ~`), the path separator `/`, and
the reserved characters named by the spec: space and `( ) [ ] \x7b \x7d # ? & = +`. -/
def allowedKeyChars : List Char :=
  "ABCDEFGHIJKLMNOPQRSTUVWXYZabcdefghijklmnopqrstuvwxyz0123456789-_.~/ ()[]\x7b\x7d#?&=+".data

/-- The per-character view of `encodeS3Key` after the split/join fusion:
`/` survives as the separator, any other character encodes as
`s3EncodeChar`. -/
def encKeyChar (c : Char) : List Char :=
  if c = '/' then ['/'] else s3EncodeChar c

/-! ## SigV4 signing (`createPresignedUrl` / `createSignedHeaders`)

part_000 lines 231-368.  The signing uses `CryptoJS.SHA256` and
`CryptoJS.HmacSHA256`; both are modelled here at the byte level (strings
enter as their UTF-8 bytes — ASCII for every string this code signs — and a
CryptoJS `WordArray` is its byte sequence).  SHA-256 is the standard FIPS
180-4 compression over 512-bit blocks; HMAC the standard two-pass
construction with a 64-byte block size; `toString()` on the result is the
lowercase hex rendering. -/

/-- Right rotation of a 32-bit word. -/
def rotr32 (n x : Nat) : Nat := ((x >>> n) ||| ((x <<< (32 - n)) % 4294967296)) % 4294967296

def ssig0 (x : Nat) : Nat := (rotr32 7 x) ^^^ (rotr32 18 x) ^^^ (x >>> 3)

def ssig1 (x : Nat) : Nat := (rotr32 17 x) ^^^ (rotr32 19 x) ^^^ (x >>> 10)

def bsig0 (x : Nat) : Nat := (rotr32 2 x) ^^^ (rotr32 13 x) ^^^ (rotr32 22 x)

def bsig1 (x : Nat) : Nat := (rotr32 6 x) ^^^ (rotr32 11 x) ^^^ (rotr32 25 x)

def shaCh (x y z : Nat) : Nat := (x &&& y) ^^^ ((x ^^^ 4294967295) &&& z)

def shaMaj (x y z : Nat) : Nat := (x &&& y) ^^^ (x &&& z) ^^^ (y &&& z)

/-- The 64 SHA-256 round constants. -/
def K256 : List Nat := [
  1116352408, 1899447441, 3049323471, 3921009573,
  961987163, 1508970993, 2453635748, 2870763221,
  3624381080, 310598401, 607225278, 1426881987,
  1925078388, 2162078206, 2614888103, 3248222580,
  3835390401, 4022224774, 264347078, 604807628,
  770255983, 1249150122, 1555081692, 1996064986,
  2554220882, 2821834349, 2952996808, 3210313671,
  3336571891, 3584528711, 113926993, 338241895,
  666307205, 773529912, 1294757372, 1396182291,
  1695183700, 1986661051, 2177026350, 2456956037,
  2730485921, 2820302411, 3259730800, 3345764771,
  3516065817, 3600352804, 4094571909, 275423344,
  430227734, 506948616, 659060556, 883997877,
  958139571, 1322822218, 1537002063, 1747873779,
  1955562222, 2024104815, 2227730452, 2361852424,
  2428436474, 2756734187, 3204031479, 3329325298]

/-- SHA-256 working state. -/
structure Sha256State where
  a : Nat
  b : Nat
  c : Nat
  d : Nat
  e : Nat
  f : Nat
  g : Nat
  h : Nat

/-- The initial hash value. -/
def sha256Init : Sha256State :=
  { a := 1779033703, b := 3144134277, c := 1013904242, d := 2773480762,
    e := 1359893119, f := 2600822924, g := 528734635, h := 1541459225 }

/-- Message-schedule extension, over the word list in reverse (most recent
word first): `W[t] = σ1(W[t-2]) + W[t-7] + σ0(W[t-15]) + W[t-16] mod 2^32`. -/
def extendWRev : Nat → List Nat → List Nat
  | 0, acc => acc
  | k + 1, acc =>
    extendWRev k (((ssig1 (acc.getD 1 0) + acc.getD 6 0
      + ssig0 (acc.getD 14 0) + acc.getD 15 0) % 4294967296) :: acc)

/-- The 64-word message schedule of one block. -/
def extendW (k : Nat) (block16 : List Nat) : List Nat :=
  (extendWRev k block16.reverse).reverse

/-- One compression round. -/
def shaRound (st : Sha256State) (k w : Nat) : Sha256State :=
  let t1 := (st.h + bsig1 st.e + shaCh st.e st.f st.g + k + w) % 4294967296
  let t2 := (bsig0 st.a + shaMaj st.a st.b st.c) % 4294967296
  { a := (t1 + t2) % 4294967296, b := st.a, c := st.b, d := st.c,
    e := (st.d + t1) % 4294967296, f := st.e, g := st.f, h := st.g }

/-- Compress one 16-word block into the chaining state. -/
def compressBlock (H : Sha256State) (block16 : List Nat) : Sha256State :=
  let ws := extendW 48 block16
  let st := (K256.zip ws).foldl (fun st kw => shaRound st kw.1 kw.2) H
  { a := (H.a + st.a) % 4294967296, b := (H.b + st.b) % 4294967296,
    c := (H.c + st.c) % 4294967296, d := (H.d + st.d) % 4294967296,
    e := (H.e + st.e) % 4294967296, f := (H.f + st.f) % 4294967296,
    g := (H.g + st.g) % 4294967296, h := (H.h + st.h) % 4294967296 }

/-- FIPS padding: `0x80`, zeros to 56 mod 64, 8-byte big-endian bit length. -/
def padMessage (msg : List Nat) : List Nat :=
  let L := msg.length
  let padLen := (119 - (L % 64)) % 64
  msg ++ [128] ++ List.replicate padLen 0
    ++ [(L * 8) / 72057594037927936 % 256, (L * 8) / 281474976710656 % 256,
        (L * 8) / 1099511627776 % 256, (L * 8) / 4294967296 % 256,
        (L * 8) / 16777216 % 256, (L * 8) / 65536 % 256,
        (L * 8) / 256 % 256, (L * 8) % 256]

/-- Big-endian 32-bit words from bytes (length a multiple of 4). -/
def bytesToWords : List Nat → List Nat
  | b0 :: b1 :: b2 :: b3 :: rest =>
    (b0 * 16777216 + b1 * 65536 + b2 * 256 + b3) :: bytesToWords rest
  | _ => []

/-- 16-word blocks from the word stream (length a multiple of 16). -/
def chunks16 : List Nat → List (List Nat)
  | w0 :: w1 :: w2 :: w3 :: w4 :: w5 :: w6 :: w7 :: w8 :: w9 :: w10 :: w11
      :: w12 :: w13 :: w14 :: w15 :: rest =>
    [w0, w1, w2, w3, w4, w5, w6, w7, w8, w9, w10, w11, w12, w13, w14, w15]
      :: chunks16 rest
  | _ => []

/-- Big-endian bytes of one 32-bit word. -/
def toB4 (w : Nat) : List Nat :=
  [w / 16777216 % 256, w / 65536 % 256, w / 256 % 256, w % 256]

def digestWords (st : Sha256State) : List Nat :=
  [st.a, st.b, st.c, st.d, st.e, st.f, st.g, st.h]

/-- The 32-byte digest of a final state. -/
def digestBytes (st : Sha256State) : List Nat :=
  ((digestWords st).map toB4).flatten

/-- SHA-256 of a byte sequence. -/
def sha256Bytes (msg : List Nat) : List Nat :=
  digestBytes ((chunks16 (bytesToWords (padMessage msg))).foldl compressBlock sha256Init)

/-- HMAC-SHA256 (block size 64) of a message under a key, both byte
sequences. -/
def hmacSha256 (key msg : List Nat) : List Nat :=
  let k0 := if 64 < key.length then sha256Bytes key else key
  let kp := k0 ++ List.replicate (64 - k0.length) 0
  sha256Bytes ((kp.map (fun b => b ^^^ 92))
    ++ sha256Bytes ((kp.map (fun b => b ^^^ 54)) ++ msg))

/-- Lowercase hex digit. -/
def hexDigitL (n : Nat) : Char :=
  if n < 10 then Char.ofNat (48 + n) else Char.ofNat (87 + n)

/-- `wordArray.toString()`: lowercase hex. -/
def bytesToHex (bs : List Nat) : String :=
  String.mk ((bs.map (fun b => [hexDigitL (b / 16), hexDigitL (b % 16)])).flatten)

/-- The four chained HMACs deriving the signing key (part_000 lines 284-287
and 348-351): `CryptoJS.HmacSHA256(data, key)` takes the message first. -/
def awsSigningKey (secretKey dateStamp region service : String) : List Nat :=
  let kDate := hmacSha256 (asciiBytes ("AWS4" ++ secretKey)) (asciiBytes dateStamp)
  let kRegion := hmacSha256 kDate (asciiBytes region)
  let kService := hmacSha256 kRegion (asciiBytes service)
  hmacSha256 kService (asciiBytes "aws4_request")

/-- The string to sign (lines 276-281 / 340-345). -/
def stringToSignOf (region service dateStamp amzDate canonicalRequest : String) : String :=
  "AWS4-HMAC-SHA256" ++ "\n" ++ amzDate ++ "\n"
    ++ (dateStamp ++ "/" ++ region ++ "/" ++ service ++ "/aws4_request") ++ "\n"
    ++ bytesToHex (sha256Bytes (asciiBytes canonicalRequest))

/-- The hex signature over a canonical request (lines 284-288 / 348-352). -/
def awsSign (secretKey region service dateStamp amzDate canonicalRequest : String) : String :=
  bytesToHex (hmacSha256 (awsSigningKey secretKey dateStamp region service)
    (asciiBytes (stringToSignOf region service dateStamp amzDate canonicalRequest)))

/-- Characters `URLSearchParams.toString()` leaves unencoded
(`application/x-www-form-urlencoded`): alphanumerics and `* - . _`. -/
def isFormSafe (c : Char) : Bool :=
  ('A' ≤ c && c ≤ 'Z') || ('a' ≤ c && c ≤ 'z') || ('0' ≤ c && c ≤ '9')
    || c == '*' || c == '-' || c == '.' || c == '_'

/-- One character of form-urlencoding: space becomes `+`, safe characters
pass, the rest percent-encode from UTF-8 with uppercase hex. -/
def formEncodeChar (c : Char) : List Char :=
  if c = ' ' then ['+']
  else if isFormSafe c then [c]
  else ((utf8Bytes c).map percentByte).flatten

def formEncode (s : String) : String :=
  String.mk ((s.data.map formEncodeChar).flatten)

/-- `URLSearchParams.toString()` over pairs in insertion order. -/
def queryStringOf (params : List (String × String)) : String :=
  String.intercalate "&" (params.map (fun kv => formEncode kv.1 ++ "=" ++ formEncode kv.2))

/-- `X-Amz-Credential` value. -/
def credentialOf (accessKey dateStamp region : String) : String :=
  accessKey ++ "/" ++ dateStamp ++ "/" ++ region ++ "/s3/aws4_request"

/-- The presigned-URL query parameters (lines 254-260), in insertion
order. -/
def presignedParams (accessKey sessionToken region dateStamp amzDate : String)
    (expires : Nat) : List (String × String) :=
  [("X-Amz-Algorithm", "AWS4-HMAC-SHA256"),
   ("X-Amz-Credential", credentialOf accessKey dateStamp region),
   ("X-Amz-Date", amzDate),
   ("X-Amz-Expires", toString expires),
   ("X-Amz-Security-Token", sessionToken),
   ("X-Amz-SignedHeaders", "host")]

/-- The canonical request of `createPresignedUrl` (lines 262-274): method,
canonical URI, canonical query string, canonical headers, signed headers,
`UNSIGNED-PAYLOAD`, newline-joined. -/
def presignedCanonicalRequest (bucket keyName region accessKey sessionToken
    dateStamp amzDate : String) (expires : Nat) : String :=
  "GET" ++ "\n" ++ ("/" ++ encodeS3Key keyName) ++ "\n"
    ++ queryStringOf (presignedParams accessKey sessionToken region dateStamp amzDate expires)
    ++ "\n" ++ ("host:" ++ bucket ++ ".s3." ++ region ++ ".amazonaws.com" ++ "\n")
    ++ "\n" ++ "host" ++ "\n" ++ "UNSIGNED-PAYLOAD"

/-- The signature computed by `createPresignedUrl` (lines 231-312), with the
request timestamp (`amzDate`/`dateStamp`, the JS `new Date()`) passed in. -/
def createPresignedUrlSignature (secretKey bucket keyName region accessKey
    sessionToken dateStamp amzDate : String) (expires : Nat) : String :=
  awsSign secretKey region "s3" dateStamp amzDate
    (presignedCanonicalRequest bucket keyName region accessKey sessionToken
      dateStamp amzDate expires)

/-- The full presigned URL (line 292): endpoint, canonical URI, query string
with the signature appended. -/
def createPresignedUrl (secretKey bucket keyName region accessKey
    sessionToken dateStamp amzDate : String) (expires : Nat) : String :=
  "https://" ++ bucket ++ ".s3." ++ region ++ ".amazonaws.com"
    ++ ("/" ++ encodeS3Key keyName) ++ "?"
    ++ queryStringOf (presignedParams accessKey sessionToken region dateStamp amzDate expires
        ++ [("X-Amz-Signature",
             createPresignedUrlSignature secretKey bucket keyName region accessKey
               sessionToken dateStamp amzDate expires)])

/-- The canonical request of `createSignedHeaders` (lines 325-338). -/
def headersCanonicalRequest (method bucket keyName region amzDate : String) : String :=
  method ++ "\n" ++ ("/" ++ encodeS3Key keyName) ++ "\n" ++ "" ++ "\n"
    ++ ("host:" ++ bucket ++ ".s3." ++ region ++ ".amazonaws.com" ++ "\n"
        ++ "x-amz-date:" ++ amzDate ++ "\n")
    ++ "\n" ++ "host;x-amz-date" ++ "\n" ++ "UNSIGNED-PAYLOAD"

/-- The signature computed by `createSignedHeaders` (lines 315-368). -/
def createSignedHeadersSignature (secretKey method bucket keyName region
    dateStamp amzDate : String) : String :=
  awsSign secretKey region "s3" dateStamp amzDate
    (headersCanonicalRequest method bucket keyName region amzDate)

/-- Big-endian value of a byte sequence (for counting arguments only). -/
def bytesToNat : List Nat → Nat
  | [] => 0
  | b :: t => b * 256 ^ t.length + bytesToNat t

/-! ## Theorems -/

theorem strData_append (a b : String) : (a ++ b).data = a.data ++ b.data := rfl

theorem strLength_data (s : String) : s.length = s.data.length := rfl

theorem strLength_append (a b : String) : (a ++ b).length = a.length + b.length := by
  rw [strLength_data, strData_append, List.length_append]; rfl

theorem jsSubstring_length (s : String) (n : Nat) :
    (jsSubstring s n).length = min n s.length := by
  show (s.data.take n).length = min n s.length
  rw [List.length_take]; rfl

theorem strJoin_data (l : List String) :
    (strJoin l).data = (l.map String.data).flatten := by
  induction l with
  | nil => rfl
  | cons s r ih => simp [strJoin, strData_append, ih]

theorem offsetsFrom_length (pos : Nat) (l : List String) :
    (offsetsFrom pos l).length = l.length := by
  induction l generalizing pos with
  | nil => rfl
  | cons s ss ih => simp [offsetsFrom, ih]

/-- A list suffix survives prepending on the left. -/
theorem suffix_extend {α : Type} {u v : List α} (a : List α) (h : u <:+ v) :
    u <:+ a ++ v :=
  h.trans (List.suffix_append a v)

/-- Core offset correctness of the accumulation loop: dropping the recorded
offset of the `k`-th object from the concatenated output lands exactly on
that object's first character. -/
theorem offsets_drop (objs : List String) :
    ∀ (pre suf : List Char) (k : Nat), k < objs.length →
      (objs.getD k "").data <+:
        List.drop ((offsetsFrom pre.length objs).getD k 0)
          (pre ++ ((strJoin objs).data ++ suf)) := by
  induction objs with
  | nil => intro pre suf k hk; simp at hk
  | cons s ss ih =>
    intro pre suf k hk
    have hdata : (strJoin (s :: ss)).data = s.data ++ (strJoin ss).data := by
      simp [strJoin, strData_append]
    match k with
    | 0 =>
      show s.data <+: List.drop ((offsetsFrom pre.length (s :: ss)).getD 0 0)
        (pre ++ ((strJoin (s :: ss)).data ++ suf))
      rw [hdata]
      have : pre ++ ((s.data ++ (strJoin ss).data) ++ suf)
          = pre ++ (s.data ++ ((strJoin ss).data ++ suf)) := by
        simp [List.append_assoc]
      rw [this]
      show s.data <+: List.drop pre.length (pre ++ (s.data ++ ((strJoin ss).data ++ suf)))
      rw [List.drop_left]
      exact List.prefix_append _ _
    | Nat.succ k =>
      have hk' : k < ss.length := by
        simpa using Nat.lt_of_succ_lt_succ (by simpa using hk)
      have hgo : (offsetsFrom pre.length (s :: ss)).getD (k + 1) 0
          = (offsetsFrom (pre.length + s.length) ss).getD k 0 := by
        simp [offsetsFrom]
      have hlen : pre.length + s.length = (pre ++ s.data).length := by
        rw [List.length_append]; rfl
      have hsplit : pre ++ ((strJoin (s :: ss)).data ++ suf)
          = (pre ++ s.data) ++ ((strJoin ss).data ++ suf) := by
        rw [hdata]; simp [List.append_assoc]
      have hget : ((s :: ss).getD (k + 1) "") = ss.getD k "" := by
        simp
      rw [hgo, hlen, hsplit, hget]
      exact ih (pre ++ s.data) suf k hk'

theorem pagePairs_flatten_length (mb bf : String) (ss : List String) :
    ((pagePairs mb bf ss).flatten).length = 2 * ss.length := by
  unfold pagePairs
  generalize ss.length = n
  induction n with
  | zero => rfl
  | succ n ih =>
    rw [show n + 1 = n.succ from rfl, List.range_succ]
    simp only [List.map_append, List.flatten_append, List.length_append]
    rw [ih]
    simp
    omega

theorem pagePairs_getD (mb bf : String) (ss : List String) (p : Nat) (hp : p < ss.length) :
    ((pagePairs mb bf ss).flatten).getD (2 * p) ""
        = pageObjContent mb bf (3 + p * 2) (4 + p * 2)
    ∧ ((pagePairs mb bf ss).flatten).getD (2 * p + 1) ""
        = streamObjContent (4 + p * 2) (ss.getD p "") := by
  unfold pagePairs
  have key : ∀ (n : Nat) (f g : Nat → String) (p : Nat), p < n →
      (((List.range n).map (fun q => [f q, g q])).flatten).getD (2 * p) "" = f p
      ∧ (((List.range n).map (fun q => [f q, g q])).flatten).getD (2 * p + 1) "" = g p := by
    intro n f g
    induction n with
    | zero => intro p hp; omega
    | succ n ih =>
      intro p hp
      have hlen : (((List.range n).map (fun q => [f q, g q])).flatten).length = 2 * n := by
        clear ih hp
        induction n with
        | zero => rfl
        | succ n ih2 =>
          rw [show n + 1 = n.succ from rfl, List.range_succ]
          simp only [List.map_append, List.flatten_append, List.length_append]
          rw [ih2]; simp; omega
      rw [show n + 1 = n.succ from rfl, List.range_succ]
      simp only [List.map_append, List.flatten_append]
      by_cases hpn : p < n
      · constructor
        · rw [List.getD_append _ _ _ _ (by rw [hlen]; omega)]
          exact (ih p hpn).1
        · rw [List.getD_append _ _ _ _ (by rw [hlen]; omega)]
          exact (ih p hpn).2
      · have hpe : p = n := by omega
        subst hpe
        constructor
        · rw [List.getD_append_right _ _ _ _ (by rw [hlen])]
          rw [hlen]
          simp
        · rw [List.getD_append_right _ _ _ _ (by rw [hlen]; omega)]
          rw [hlen]
          have : 2 * p + 1 - 2 * p = 1 := by omega
          rw [this]
          simp
  exact key ss.length _ _ p hp

/-- A list prefix survives appending on the right. -/
theorem prefix_extend {α : Type} {u v : List α} (w : List α) (h : u <+: v) :
    u <+: v ++ w :=
  h.trans (List.prefix_append v w)

/-- A list prefix survives prepending the same list on both sides. -/
theorem prefix_append_both {α : Type} (u : List α) {a b : List α} (h : a <+: b) :
    u ++ a <+: u ++ b := by
  obtain ⟨t, ht⟩ := h
  exact ⟨t, by rw [List.append_assoc, ht]⟩

theorem pdfObjects_length (mb bf : String) (ss : List String) :
    (pdfObjects mb bf ss).length = 2 + 2 * ss.length := by
  simp only [pdfObjects, List.length_cons, pagePairs_flatten_length]
  omega

set_option maxRecDepth 8000 in
theorem pageObjContent_head (mb bf : String) (i c : Nat) :
    (toString i ++ " 0 obj").data <+: (pageObjContent mb bf i c).data := by
  simp only [pageObjContent, strData_append, List.append_assoc]
  apply prefix_append_both
  apply prefix_extend
  decide

set_option maxRecDepth 8000 in
theorem streamObjContent_head (c : Nat) (cs : String) :
    (toString c ++ " 0 obj").data <+: (streamObjContent c cs).data := by
  simp only [streamObjContent, strData_append, List.append_assoc]
  apply prefix_append_both
  apply prefix_extend
  decide

/-- Every assembled object body begins with `"{id} 0 obj"`, where object ids
run consecutively from 1: the `k`-th object has id `k+1`. -/
theorem pdfObjects_head (mb bf : String) (ss : List String) :
    ∀ k, k < (pdfObjects mb bf ss).length →
      (toString (k + 1) ++ " 0 obj").data <+: ((pdfObjects mb bf ss).getD k "").data := by
  intro k hk
  rw [pdfObjects_length] at hk
  match k with
  | 0 =>
    show (toString 1 ++ " 0 obj" : String).data <+: catalogContent.data
    decide
  | 1 =>
    show (toString 2 ++ " 0 obj" : String).data <+: (pagesContent ss.length).data
    have h2 : (toString 2 ++ " 0 obj" : String).data = ("2 0 obj" : String).data := rfl
    rw [h2]
    simp only [pagesContent, strData_append, List.append_assoc]
    apply prefix_extend
    decide
  | (j + 2) =>
    have hj : j < 2 * ss.length := by omega
    have hget : (pdfObjects mb bf ss).getD (j + 2) ""
        = ((pagePairs mb bf ss).flatten).getD j "" := by
      simp [pdfObjects]
    rw [hget]
    rcases Nat.even_or_odd j with ⟨p, hp⟩ | ⟨p, hp⟩
    · have hpn : p < ss.length := by omega
      have hflat : ((pagePairs mb bf ss).flatten).getD j ""
          = pageObjContent mb bf (3 + p * 2) (4 + p * 2) := by
        rw [show j = 2 * p from by omega]
        exact (pagePairs_getD mb bf ss p hpn).1
      rw [hflat, show 3 + p * 2 = (j + 2) + 1 from by omega]
      exact pageObjContent_head mb bf _ _
    · have hpn : p < ss.length := by omega
      have hflat : ((pagePairs mb bf ss).flatten).getD j ""
          = streamObjContent (4 + p * 2) (ss.getD p "") := by
        rw [show j = 2 * p + 1 from by omega]
        exact (pagePairs_getD mb bf ss p hpn).2
      rw [hflat, show 4 + p * 2 = (j + 2) + 1 from by omega]
      exact streamObjContent_head _ _

theorem assemblePdf_data (objs : List String) :
    (assemblePdf objs).data
      = pdfHeader.data ++ ((strJoin objs).data
          ++ (xrefSection (xrefEntries objs)
              ++ trailerSection (xrefEntries objs).length (pdfBody objs).length).data) := by
  simp only [assemblePdf, pdfBody, strData_append, List.append_assoc]

theorem assemble_starts_header (objs : List String) :
    pdfHeader.data <+: (assemblePdf objs).data := by
  rw [assemblePdf_data]; exact List.prefix_append _ _

set_option maxRecDepth 100000 in
theorem assemble_ends_eof (objs : List String) :
    ("%%EOF\n" : String).data <:+ (assemblePdf objs).data := by
  have h0 : ("%%EOF\n" : String).data <:+ ("\n%%EOF\n" : String).data :=
    ⟨"\n".data, by decide⟩
  simp only [assemblePdf, pdfBody, trailerSection, xrefSection, strData_append,
    List.append_assoc]
  repeat apply suffix_extend
  exact h0

/-- For every object `k`, dropping the recorded xref offset from the final
output lands on that object's `"{k+1} 0 obj"` header. -/
theorem assemble_xref_correct (mb bf : String) (ss : List String) :
    ∀ k, k < (pdfObjects mb bf ss).length →
      (toString (k + 1) ++ " 0 obj").data <+:
        ((assemblePdf (pdfObjects mb bf ss)).data).drop
          ((xrefEntries (pdfObjects mb bf ss)).getD k 0) := by
  intro k hk
  have h1 := offsets_drop (pdfObjects mb bf ss) pdfHeader.data
    ((xrefSection (xrefEntries (pdfObjects mb bf ss))
      ++ trailerSection (xrefEntries (pdfObjects mb bf ss)).length
          (pdfBody (pdfObjects mb bf ss)).length).data) k hk
  have h2 := pdfObjects_head mb bf ss k hk
  rw [assemblePdf_data]
  exact h2.trans h1

/-- The stream object of page `p` sits at position `2p+3` of the object list
and is exactly `streamObjContent` of the page's content stream. -/
theorem pdfObjects_stream (mb bf : String) (ss : List String) (p : Nat)
    (hp : p < ss.length) :
    (pdfObjects mb bf ss).getD (2 * p + 3) ""
      = streamObjContent (4 + p * 2) (ss.getD p "") := by
  have hget : (pdfObjects mb bf ss).getD (2 * p + 3) ""
      = ((pagePairs mb bf ss).flatten).getD (2 * p + 1) "" := by
    rw [show 2 * p + 3 = (2 * p + 1) + 2 from rfl]
    simp [pdfObjects]
  rw [hget, (pagePairs_getD mb bf ss p hp).2]

/-- The page object of page `p` sits at position `2p+2` of the object list. -/
theorem pdfObjects_page (mb bf : String) (ss : List String) (p : Nat)
    (hp : p < ss.length) :
    (pdfObjects mb bf ss).getD (2 * p + 2) ""
      = pageObjContent mb bf (3 + p * 2) (4 + p * 2) := by
  have hget : (pdfObjects mb bf ss).getD (2 * p + 2) ""
      = ((pagePairs mb bf ss).flatten).getD (2 * p) "" := by
    rw [show 2 * p + 2 = (2 * p) + 2 from rfl]
    simp [pdfObjects]
  rw [hget, (pagePairs_getD mb bf ss p hp).1]

theorem asciiBytes_length (s : String) : (asciiBytes s).length = s.length := by
  show (s.data.map Char.toNat).length = s.length
  rw [List.length_map]; rfl

/-- **C1.** For every list of input lines (and, for the excel converter, every
file name), the text assembled by `createPdfStructure` — whose
`TextEncoder().encode` byte stream is `asciiBytes` of it, the strings being
ASCII — starts with `%PDF-1.4\n` and ends with `%%EOF\n`; for every emitted
object (the `k`-th object carrying id `k+1`), the offset recorded in the
cross-reference table at position `k` is a byte position at which the bytes
of `"{k+1} 0 obj"` begin; and every content-stream object declares a
`/Length` equal to the byte length of the stream body it carries.  Stated for
both converters' `createPdfStructure`. -/
theorem claim_C1 (lines : List String) (fileName : String) :
    ((asciiBytes pdfHeader <+: asciiBytes (docxCreatePdfStructure lines))
      ∧ (asciiBytes "%%EOF\n" <:+ asciiBytes (docxCreatePdfStructure lines))
      ∧ (∀ k, k < (docxObjs lines).length →
          asciiBytes (toString (k + 1) ++ " 0 obj") <+:
            (asciiBytes (docxCreatePdfStructure lines)).drop
              ((xrefEntries (docxObjs lines)).getD k 0))
      ∧ (∀ p, p < (docxContentStreams lines).length →
          (docxObjs lines).getD (2 * p + 3) ""
            = toString (4 + p * 2) ++ " 0 obj\n<<\n/Length "
                ++ toString (asciiBytes ((docxContentStreams lines).getD p "")).length
                ++ "\n>>\nstream\n" ++ (docxContentStreams lines).getD p ""
                ++ "\nendstream\nendobj\n"))
    ∧ ((asciiBytes pdfHeader <+: asciiBytes (excelCreatePdfStructure lines fileName))
      ∧ (asciiBytes "%%EOF\n" <:+ asciiBytes (excelCreatePdfStructure lines fileName))
      ∧ (∀ k, k < (excelObjs fileName lines).length →
          asciiBytes (toString (k + 1) ++ " 0 obj") <+:
            (asciiBytes (excelCreatePdfStructure lines fileName)).drop
              ((xrefEntries (excelObjs fileName lines)).getD k 0))
      ∧ (∀ p, p < (excelContentStreams fileName lines).length →
          (excelObjs fileName lines).getD (2 * p + 3) ""
            = toString (4 + p * 2) ++ " 0 obj\n<<\n/Length "
                ++ toString (asciiBytes ((excelContentStreams fileName lines).getD p "")).length
                ++ "\n>>\nstream\n" ++ (excelContentStreams fileName lines).getD p ""
                ++ "\nendstream\nendobj\n")) := by
  have core : ∀ (mb bf : String) (ss : List String),
      (asciiBytes pdfHeader <+: asciiBytes (assemblePdf (pdfObjects mb bf ss)))
      ∧ (asciiBytes "%%EOF\n" <:+ asciiBytes (assemblePdf (pdfObjects mb bf ss)))
      ∧ (∀ k, k < (pdfObjects mb bf ss).length →
          asciiBytes (toString (k + 1) ++ " 0 obj") <+:
            (asciiBytes (assemblePdf (pdfObjects mb bf ss))).drop
              ((xrefEntries (pdfObjects mb bf ss)).getD k 0))
      ∧ (∀ p, p < ss.length →
          (pdfObjects mb bf ss).getD (2 * p + 3) ""
            = toString (4 + p * 2) ++ " 0 obj\n<<\n/Length "
                ++ toString (asciiBytes (ss.getD p "")).length
                ++ "\n>>\nstream\n" ++ ss.getD p "" ++ "\nendstream\nendobj\n") := by
    intro mb bf ss
    refine ⟨(assemble_starts_header _).map _, (assemble_ends_eof _).map _, ?_, ?_⟩
    · intro k hk
      have h := (assemble_xref_correct mb bf ss k hk).map Char.toNat
      rw [List.map_drop] at h
      exact h
    · intro p hp
      rw [pdfObjects_stream mb bf ss p hp, asciiBytes_length]
      rfl
  exact ⟨core _ _ _, core _ _ _⟩

/-- **C10.** Both converters emit `max 1 ⌈lines.length / maxLinesPerPage⌉`
pages (at least one even for zero input lines); the page-tree object (always
object 2 of the output) has `/Count` equal to that number and `/Kids` listing
exactly the page object ids `3, 5, 7, …`; and page `p`'s page object is the
`2p+2`-nd object with id `3+2p`. -/
theorem claim_C10 (lines : List String) (fileName : String) :
    ((docxContentStreams lines).length = max 1 ((lines.length + 52 - 1) / 52)
      ∧ 1 ≤ (docxContentStreams lines).length
      ∧ (docxObjs lines).length = 2 + 2 * (docxContentStreams lines).length
      ∧ (docxObjs lines).getD 1 "" = pagesContent (docxContentStreams lines).length
      ∧ pagesContent (docxContentStreams lines).length
          = "2 0 obj\n<<\n/Type /Pages\n/Kids ["
              ++ String.intercalate " " ((List.range (docxContentStreams lines).length).map
                  (fun i => toString (3 + i * 2) ++ " 0 R"))
              ++ "]\n/Count " ++ toString (docxContentStreams lines).length ++ "\n>>\nendobj\n"
      ∧ (∀ p, p < (docxContentStreams lines).length →
          (docxObjs lines).getD (2 * p + 2) ""
            = pageObjContent "0 0 595.28 841.89" "Helvetica" (3 + p * 2) (4 + p * 2)))
    ∧ ((excelContentStreams fileName lines).length = max 1 ((lines.length + 32 - 1) / 32)
      ∧ 1 ≤ (excelContentStreams fileName lines).length
      ∧ (excelObjs fileName lines).length = 2 + 2 * (excelContentStreams fileName lines).length
      ∧ (excelObjs fileName lines).getD 1 ""
          = pagesContent (excelContentStreams fileName lines).length
      ∧ pagesContent (excelContentStreams fileName lines).length
          = "2 0 obj\n<<\n/Type /Pages\n/Kids ["
              ++ String.intercalate " " ((List.range (excelContentStreams fileName lines).length).map
                  (fun i => toString (3 + i * 2) ++ " 0 R"))
              ++ "]\n/Count " ++ toString (excelContentStreams fileName lines).length
              ++ "\n>>\nendobj\n"
      ∧ (∀ p, p < (excelContentStreams fileName lines).length →
          (excelObjs fileName lines).getD (2 * p + 2) ""
            = pageObjContent "0 0 842 595" "Courier" (3 + p * 2) (4 + p * 2))) := by
  have harith : ∀ n m : Nat, 0 < m → jsTotalPages n m = max 1 ((n + m - 1) / m) := by
    intro n m hm
    unfold jsTotalPages
    split
    · rename_i h
      rw [h]
      exact (Nat.max_eq_left (by omega)).symm
    · rename_i h
      exact (Nat.max_eq_right (Nat.pos_of_ne_zero h)).symm
  have hdl : (docxContentStreams lines).length = jsTotalPages lines.length 52 := by
    simp [docxContentStreams, maxLinesPerPageDocx]
  have hel : (excelContentStreams fileName lines).length = jsTotalPages lines.length 32 := by
    simp [excelContentStreams, maxLinesPerPageExcel]
  refine ⟨⟨?_, ?_, ?_, rfl, rfl, ?_⟩, ⟨?_, ?_, ?_, rfl, rfl, ?_⟩⟩
  · rw [hdl, harith _ _ (by omega)]
  · rw [hdl]; unfold jsTotalPages; split <;> omega
  · exact pdfObjects_length _ _ _
  · intro p hp; exact pdfObjects_page _ _ _ p hp
  · rw [hel, harith _ _ (by omega)]
  · rw [hel]; unfold jsTotalPages; split <;> omega
  · exact pdfObjects_length _ _ _
  · intro p hp; exact pdfObjects_page _ _ _ p hp

/-! ### Paginator lemmas (C7) -/

theorem strLength_pos (s : String) (h : s ≠ "") : 0 < s.length := by
  cases s with
  | mk data =>
    cases data with
    | nil => exact absurd rfl h
    | cons c cs => simp [strLength_data]

theorem strLength_sep_append (a b : String) :
    ((a ++ " ") ++ b).length = a.length + 1 + b.length := by
  rw [strLength_append, strLength_append]; rfl

theorem flushPending_cons (x : String) (l : List String) (s : String) :
    flushPending (x :: l, s) = x :: flushPending (l, s) := by
  simp [flushPending]

/-- A pending line that is non-empty and already at (or over) the width limit
is flushed as a line of its own, whatever words follow. -/
theorem wrapLoop_flush (mx : Nat) (ws : List String) (cl : String)
    (hne : cl ≠ "") (hlen : mx ≤ cl.length) :
    cl ∈ flushPending (wrapLoop mx ws cl) := by
  cases ws with
  | nil => simp [wrapLoop, flushPending, hne]
  | cons v ws =>
    have hlen2 : ¬ (((cl ++ " ") ++ v).length ≤ mx) := by
      rw [strLength_sep_append]; omega
    simp only [wrapLoop]
    rw [if_neg hne, if_neg hlen2, if_neg hne, flushPending_cons]
    exact List.mem_cons_self _ _

/-- Any word longer than the limit is emitted truncated to the first
`maxLength` characters, regardless of where it occurs. -/
theorem wrapLoop_mem (mx : Nat) (w : String) (hlong : mx < w.length) :
    ∀ (ws : List String), w ∈ ws → ∀ cl : String, cl.length ≤ mx →
      jsSubstring w mx ∈ flushPending (wrapLoop mx ws cl) := by
  intro ws
  induction ws with
  | nil => intro h; exact absurd h (List.not_mem_nil w)
  | cons v ws ih =>
    intro hw cl hcl
    rw [List.mem_cons] at hw
    by_cases hcleq : cl = ""
    · subst hcleq
      by_cases htest : v.length ≤ mx
      · have hwv : w ∈ ws := by
          rcases hw with h | h
          · subst h; omega
          · exact h
        have hstep : wrapLoop mx (v :: ws) "" = wrapLoop mx ws v := by
          simp only [wrapLoop, if_true]
          rw [if_pos htest]
        rw [hstep]
        exact ih hwv v htest
      · have hstep : wrapLoop mx (v :: ws) ""
            = (jsSubstring v mx :: (wrapLoop mx ws "").1, (wrapLoop mx ws "").2) := by
          simp only [wrapLoop, if_true]
          rw [if_neg htest]
        rw [hstep, flushPending_cons]
        rcases hw with h | h
        · subst h
          exact List.mem_cons_self _ _
        · exact List.mem_cons_of_mem _ (ih h "" (Nat.zero_le mx))
    · by_cases htest : ((cl ++ " ") ++ v).length ≤ mx
      · have hwv : w ∈ ws := by
          rcases hw with h | h
          · subst h
            rw [strLength_sep_append] at htest
            omega
          · exact h
        have hstep : wrapLoop mx (v :: ws) cl = wrapLoop mx ws ((cl ++ " ") ++ v) := by
          simp only [wrapLoop]
          rw [if_neg hcleq, if_pos htest]
        rw [hstep]
        exact ih hwv _ htest
      · have hmx : 0 < mx := by
          have := strLength_pos cl hcleq
          omega
        have hstep : wrapLoop mx (v :: ws) cl
            = (cl :: (wrapLoop mx ws (if v.length ≤ mx then v else jsSubstring v mx)).1,
               (wrapLoop mx ws (if v.length ≤ mx then v else jsSubstring v mx)).2) := by
          simp only [wrapLoop]
          rw [if_neg hcleq, if_neg htest, if_neg hcleq]
        rcases hw with h | h
        · subst h
          have hvlong : ¬ (w.length ≤ mx) := by omega
          rw [hstep, if_neg hvlong, flushPending_cons]
          apply List.mem_cons_of_mem
          have htlen : (jsSubstring w mx).length = mx := by
            rw [jsSubstring_length]
            omega
          exact wrapLoop_flush mx ws (jsSubstring w mx)
            (fun he => by rw [he] at htlen; simp [strLength_data] at htlen; omega)
            (by omega)
        · by_cases hvfit : v.length ≤ mx
          · rw [hstep, if_pos hvfit, flushPending_cons]
            exact List.mem_cons_of_mem _ (ih h v hvfit)
          · rw [hstep, if_neg hvfit, flushPending_cons]
            apply List.mem_cons_of_mem
            exact ih h _ (by rw [jsSubstring_length]; omega)

/-- Paragraph-level truncation guarantee. -/
theorem wrapParagraph_mem (mx : Nat) (words : List String) (w : String)
    (hw : w ∈ words) (hlong : mx < w.length) :
    jsSubstring w mx ∈ wrapParagraph mx words :=
  wrapLoop_mem mx w hlong words hw "" (Nat.zero_le mx)

theorem splitWords_empty : splitWords "" = [] := by decide

/-- **C7.** For every input text and width limit, whenever `splitIntoLines`
meets a whitespace-delimited word longer than the limit inside a wrapped
paragraph, the word appears in the output truncated to its first
`maxCharsPerLine` characters — it is never dropped.  For the excel variant
the limit is the hardcoded 90 and only non-table paragraphs (no `|` or `+`)
are word-wrapped. -/
theorem claim_C7 :
    (∀ (mx : Nat) (text paragraph w : String),
        paragraph ∈ jsSplitNewline text →
        w ∈ splitWords (jsTrim paragraph) →
        mx < w.length →
        jsSubstring w mx ∈ splitIntoLinesDocx mx text)
    ∧ (∀ (text paragraph w : String),
        paragraph ∈ jsSplitNewline text →
        paragraph.data.contains '|' = false →
        paragraph.data.contains '+' = false →
        w ∈ splitWords (jsTrim paragraph) →
        90 < w.length →
        jsSubstring w 90 ∈ splitIntoLinesExcel text) := by
  constructor
  · intro mx text p w hp hw hlong
    have hptrim : ¬ (jsTrim p = "") := by
      intro h
      rw [h, splitWords_empty] at hw
      exact absurd hw (List.not_mem_nil w)
    unfold splitIntoLinesDocx
    rw [List.mem_flatten]
    refine ⟨wrapParagraph mx (splitWords (jsTrim p)), ?_, wrapParagraph_mem _ _ _ hw hlong⟩
    have hmem := List.mem_map_of_mem
      (fun paragraph => if jsTrim paragraph = "" then [""]
        else wrapParagraph mx (splitWords (jsTrim paragraph))) hp
    simpa [if_neg hptrim] using hmem
  · intro text p w hp hbar hplus hw hlong
    have hptrim : ¬ (jsTrim p = "") := by
      intro h
      rw [h, splitWords_empty] at hw
      exact absurd hw (List.not_mem_nil w)
    unfold splitIntoLinesExcel
    rw [List.mem_flatten]
    refine ⟨wrapParagraph 90 (splitWords (jsTrim p)), ?_, wrapParagraph_mem _ _ _ hw hlong⟩
    have hmem := List.mem_map_of_mem
      (fun paragraph => if jsTrim paragraph = "" then [""]
        else if paragraph.data.contains '|' || paragraph.data.contains '+' then
          [jsTrim paragraph]
        else wrapParagraph 90 (splitWords (jsTrim paragraph))) hp
    have hbar' : ¬ ('|' ∈ p.data) := by simpa using hbar
    have hplus' : ¬ ('+' ∈ p.data) := by simpa using hplus
    simpa [if_neg hptrim, hbar', hplus'] using hmem

/-- Concrete instantiation of `claim_C7` discharging its hypotheses. -/
theorem claim_C7_witness :
    (("hello world" : String) ∈ jsSplitNewline "hello world"
      ∧ ("hello" : String) ∈ splitWords (jsTrim "hello world")
      ∧ 3 < ("hello" : String).length
      ∧ jsSubstring "hello" 3 ∈ splitIntoLinesDocx 3 "hello world")
    ∧ (("aaaaaaaaaaaaaaaaaaaaaaaaaaaaaaaaaaaaaaaaaaaaaaaaaaaaaaaaaaaaaaaaaaaaaaaaaaaaaaaaaaaaaaaaaaa x" : String) ∈ jsSplitNewline "aaaaaaaaaaaaaaaaaaaaaaaaaaaaaaaaaaaaaaaaaaaaaaaaaaaaaaaaaaaaaaaaaaaaaaaaaaaaaaaaaaaaaaaaaaa x"
      ∧ ("aaaaaaaaaaaaaaaaaaaaaaaaaaaaaaaaaaaaaaaaaaaaaaaaaaaaaaaaaaaaaaaaaaaaaaaaaaaaaaaaaaaaaaaaaaa x" : String).data.contains '|' = false
      ∧ ("aaaaaaaaaaaaaaaaaaaaaaaaaaaaaaaaaaaaaaaaaaaaaaaaaaaaaaaaaaaaaaaaaaaaaaaaaaaaaaaaaaaaaaaaaaa x" : String).data.contains '+' = false
      ∧ ("aaaaaaaaaaaaaaaaaaaaaaaaaaaaaaaaaaaaaaaaaaaaaaaaaaaaaaaaaaaaaaaaaaaaaaaaaaaaaaaaaaaaaaaaaaa" : String) ∈ splitWords (jsTrim "aaaaaaaaaaaaaaaaaaaaaaaaaaaaaaaaaaaaaaaaaaaaaaaaaaaaaaaaaaaaaaaaaaaaaaaaaaaaaaaaaaaaaaaaaaa x")
      ∧ 90 < ("aaaaaaaaaaaaaaaaaaaaaaaaaaaaaaaaaaaaaaaaaaaaaaaaaaaaaaaaaaaaaaaaaaaaaaaaaaaaaaaaaaaaaaaaaaa" : String).length
      ∧ jsSubstring "aaaaaaaaaaaaaaaaaaaaaaaaaaaaaaaaaaaaaaaaaaaaaaaaaaaaaaaaaaaaaaaaaaaaaaaaaaaaaaaaaaaaaaaaaaa" 90 ∈ splitIntoLinesExcel "aaaaaaaaaaaaaaaaaaaaaaaaaaaaaaaaaaaaaaaaaaaaaaaaaaaaaaaaaaaaaaaaaaaaaaaaaaaaaaaaaaaaaaaaaaa x") :=
  ⟨⟨by decide, by decide, by decide,
    claim_C7.1 3 "hello world" "hello world" "hello" (by decide) (by decide) (by decide)⟩,
   ⟨by decide, by decide, by decide, by decide, by decide,
    claim_C7.2 "aaaaaaaaaaaaaaaaaaaaaaaaaaaaaaaaaaaaaaaaaaaaaaaaaaaaaaaaaaaaaaaaaaaaaaaaaaaaaaaaaaaaaaaaaaa x" "aaaaaaaaaaaaaaaaaaaaaaaaaaaaaaaaaaaaaaaaaaaaaaaaaaaaaaaaaaaaaaaaaaaaaaaaaaaaaaaaaaaaaaaaaaa x" "aaaaaaaaaaaaaaaaaaaaaaaaaaaaaaaaaaaaaaaaaaaaaaaaaaaaaaaaaaaaaaaaaaaaaaaaaaaaaaaaaaaaaaaaaaa" (by decide) (by decide) (by decide)
      (by decide) (by decide)⟩⟩

/-! ### Downloader theorems (C3, C4) -/

/-- **C3.** Whenever a strategy attempt fails with an authentication failure
(message containing `403` or `Access denied`), `downloadFile` terminates
immediately with that error: one attempt if the first strategy throws it, two
if the second (after a non-auth first failure), three if the third — never
attempting the remaining strategies. -/
theorem claim_C3 {DR : Type} (p d s : Except String DR) (e : String)
    (hauth : isAuthError e = true) :
    (p = Except.error e → downloadFile p d s = (Except.error e, 1))
    ∧ (∀ m, p = Except.error m → isAuthError m = false → d = Except.error e →
        downloadFile p d s = (Except.error e, 2))
    ∧ (∀ m m', p = Except.error m → isAuthError m = false →
        d = Except.error m' → isAuthError m' = false → s = Except.error e →
        downloadFile p d s = (Except.error e, 3)) := by
  refine ⟨?_, ?_, ?_⟩
  · intro hp
    subst hp
    simp [downloadFile, downloadLoop, hauth]
  · intro m hp hm hd
    subst hp; subst hd
    simp [downloadFile, downloadLoop, hauth, hm]
  · intro m m' hp hm hd hm' hs
    subst hp; subst hd; subst hs
    simp [downloadFile, downloadLoop, hauth, hm, hm']

/-- Concrete instantiation of `claim_C3`: an HTTP 403 on the first strategy
stops the loop after one attempt. -/
theorem claim_C3_witness :
    isAuthError "Pre-signed URL download failed: 403 Forbidden" = true
    ∧ @downloadFile Unit
        (Except.error "Pre-signed URL download failed: 403 Forbidden")
        (Except.ok ()) (Except.ok ())
      = (Except.error "Pre-signed URL download failed: 403 Forbidden", 1) :=
  ⟨by decide,
   (claim_C3 (Except.error "Pre-signed URL download failed: 403 Forbidden")
      (Except.ok ()) (Except.ok ())
      "Pre-signed URL download failed: 403 Forbidden" (by decide)).1 rfl⟩

/-- **C4 (counterexample).** The claim says that when all three strategies
fail with non-auth errors the reported result aggregates the last error per
strategy, recording all three attempts.  The code keeps only a single
`lastError` and throws it: on errors `network error one/two/three` the thrown
message is exactly `network error three`, which does not contain the first
strategy's message, so no aggregate of all three errors is reported. -/
theorem claim_C4_counterexample :
    ¬ (∀ (m1 m2 m3 : String),
        isAuthError m1 = false → isAuthError m2 = false → isAuthError m3 = false →
        ∃ agg : String,
          (@downloadFile Unit
              (Except.error m1) (Except.error m2) (Except.error m3)).1
            = Except.error agg
          ∧ jsIncludes agg m1 = true ∧ jsIncludes agg m2 = true
          ∧ jsIncludes agg m3 = true) := by
  intro h
  obtain ⟨agg, heq, hagg1, -, -⟩ :=
    h "network error one" "network error two" "network error three"
      (by decide) (by decide) (by decide)
  have hval : (@downloadFile Unit
      (Except.error "network error one") (Except.error "network error two")
      (Except.error "network error three")).1
      = Except.error "network error three" := by rfl
  rw [hval] at heq
  have : agg = "network error three" := (Except.error.inj heq).symm
  subst this
  exact absurd hagg1 (by decide)

/-- **C4 (amended).** On non-authentication failures `downloadFile` attempts
exactly the 3 strategies, in the fixed order presigned-URL GET, header-signed
GET, basic-auth GET (the order of its arguments), and when all 3 fail it
reports failure — no partial success — after 3 recorded attempts, carrying
the third (last) strategy's error rather than an aggregate; within one
strategy, `fetchWithRetry` propagates the last of its (up to 3) attempt
errors. -/
theorem claim_C4 {DR : Type} (m1 m2 m3 : String)
    (h1 : isAuthError m1 = false) (h2 : isAuthError m2 = false)
    (h3 : isAuthError m3 = false) :
    @downloadFile DR
        (Except.error m1) (Except.error m2) (Except.error m3)
      = (Except.error m3, 3)
    ∧ (∀ (e1 e2 e3 : String),
        @fetchWithRetry DR [Except.error e1, Except.error e2, Except.error e3]
          = Except.error e3) := by
  constructor
  · simp [downloadFile, downloadLoop, h1, h2, h3]
  · intro e1 e2 e3
    simp [fetchWithRetry]

/-- Concrete instantiation of `claim_C4`. -/
theorem claim_C4_witness :
    (isAuthError "network timeout" = false
      ∧ isAuthError "CORS failure" = false
      ∧ isAuthError "connection reset" = false)
    ∧ @downloadFile Unit
        (Except.error "network timeout") (Except.error "CORS failure")
        (Except.error "connection reset")
      = (Except.error "connection reset", 3)
    ∧ (∀ (e1 e2 e3 : String),
        @fetchWithRetry Unit [Except.error e1, Except.error e2, Except.error e3]
          = Except.error e3) :=
  ⟨⟨by decide, by decide, by decide⟩,
   (claim_C4 "network timeout" "CORS failure" "connection reset"
      (by decide) (by decide) (by decide)).1,
   (claim_C4 "network timeout" "CORS failure" "connection reset"
      (by decide) (by decide) (by decide)).2⟩

/-! ### Converter fallback theorems (C2) -/

/-- **C2.** For every extraction outcome that fails or yields empty text,
`convertToPdf` (both converters) never propagates the failure: it returns
`Except.ok` of the diagnostic PDF built by `createErrorPdf` through the
normal assembly path, and `createErrorPdf` itself is the assembled
diagnostic when assembly succeeds or the hardcoded minimal fixed-byte PDF
when assembly of the diagnostic fails. -/
theorem claim_C2 :
    (∀ (assemble : String → Except String String) (e : String),
        docxConvertToPdf (Except.error e) assemble
          = Except.ok (docxCreateErrorPdf assemble e))
    ∧ (∀ (assemble : String → Except String String) (t : String),
        jsTrim t = "" →
        docxConvertToPdf (Except.ok t) assemble
          = Except.ok (docxCreateErrorPdf assemble "No text content found in DOCX file"))
    ∧ (∀ (assemble : String → Except String String) (msg : String),
        docxCreateErrorPdf assemble msg = docxMinimalPdf
        ∨ ∃ pdf, assemble (docxErrorText msg) = Except.ok pdf
            ∧ docxCreateErrorPdf assemble msg = pdf)
    ∧ (∀ (assemble : String → Except String String) (fileName e : String),
        excelConvertToPdf (Except.error e) assemble fileName
          = Except.ok (excelCreateErrorPdf assemble e fileName))
    ∧ (∀ (assemble : String → Except String String) (fileName t : String),
        jsTrim t = "" →
        excelConvertToPdf (Except.ok t) assemble fileName
          = Except.ok (excelCreateErrorPdf assemble "No data found in file" fileName))
    ∧ (∀ (assemble : String → Except String String) (msg fileName : String),
        excelCreateErrorPdf assemble msg fileName = excelMinimalPdf
        ∨ ∃ pdf, assemble (excelErrorText msg fileName) = Except.ok pdf
            ∧ excelCreateErrorPdf assemble msg fileName = pdf) := by
  refine ⟨?_, ?_, ?_, ?_, ?_, ?_⟩
  · intro assemble e
    simp [docxConvertToPdf]
  · intro assemble t ht
    simp [docxConvertToPdf, ht]
  · intro assemble msg
    unfold docxCreateErrorPdf
    cases h : assemble (docxErrorText msg) with
    | ok pdf => exact Or.inr ⟨pdf, rfl, rfl⟩
    | error e => exact Or.inl rfl
  · intro assemble fileName e
    simp [excelConvertToPdf]
  · intro assemble fileName t ht
    simp [excelConvertToPdf, ht]
  · intro assemble msg fileName
    unfold excelCreateErrorPdf
    cases h : assemble (excelErrorText msg fileName) with
    | ok pdf => exact Or.inr ⟨pdf, rfl, rfl⟩
    | error e => exact Or.inl rfl

/-- Concrete instantiation of `claim_C2`: empty extracted text with a failing
assembler still yields a PDF — here the minimal fallback document. -/
theorem claim_C2_witness :
    jsTrim "  " = ""
    ∧ docxConvertToPdf (Except.ok "  ") (fun _ => Except.error "assembly failed")
        = Except.ok (docxCreateErrorPdf (fun _ => Except.error "assembly failed")
            "No text content found in DOCX file") :=
  ⟨by decide,
   claim_C2.2.1 (fun _ => Except.error "assembly failed") "  " (by decide)⟩

/-! ### Table extraction theorems (C8) -/

theorem strAppend_empty (s : String) : s ++ "" = s := by
  cases s with
  | mk l =>
    show String.mk (l ++ []) = String.mk l
    rw [List.append_nil]

theorem renderRows_pos (rest : List (List String)) :
    ∀ idx, idx ≠ 0 → (∀ r ∈ rest, r ≠ []) →
      renderRows idx rest = strJoin (rest.map renderRow) := by
  induction rest with
  | nil => intro idx h hne; rfl
  | cons r rs ih =>
    intro idx h hne
    have hr : r.length ≠ 0 := by
      intro hz
      exact hne r (List.mem_cons_self _ _) (List.length_eq_zero.mp hz)
    simp only [renderRows, strJoin, List.map_cons]
    rw [if_pos hr, if_neg h, strAppend_empty,
      ih (idx + 1) (by omega) (fun x hx => hne x (List.mem_cons_of_mem _ hx))]

/-- Structural shape of one sheet's rendering: header-row line, separator
after it, the remaining row lines, a bottom border exactly when there is
more than one row, a closing blank line — prefixed by the banner when the
workbook is multi-sheet. -/
theorem sheetText_decomp (multi : Bool) (name : String) (r0 : List String)
    (rest : List (List String)) (hne : ∀ r ∈ r0 :: rest, r ≠ []) :
    sheetText multi name (r0 :: rest)
      = (if multi then "\n=== Sheet: " ++ name ++ " ===\n\n" else "")
        ++ (renderRow r0 ++ (sepRow r0 ++ (strJoin (rest.map renderRow)
            ++ ((if rest.length = 0 then "" else sepRow ((rest.getLast?).getD []))
                ++ "\n")))) := by
  have hr0 : r0.length ≠ 0 := by
    intro hz
    exact hne r0 (List.mem_cons_self _ _) (List.length_eq_zero.mp hz)
  have h1 : renderRows 0 (r0 :: rest)
      = (renderRow r0 ++ sepRow r0) ++ strJoin (rest.map renderRow) := by
    simp only [renderRows]
    rw [if_pos hr0]
    simp only [if_true]
    rw [renderRows_pos rest (0 + 1) (by omega)
      (fun x hx => hne x (List.mem_cons_of_mem _ hx))]
  unfold sheetText
  rw [if_pos (by simp : ¬ ((r0 :: rest).length = 0)), h1]
  cases rest with
  | nil =>
    rw [if_neg (by simp : ¬ (1 < ([r0] : List (List String)).length)),
      if_pos (by simp : ([] : List (List String)).length = 0)]
    simp [String.append_assoc, strJoin, strAppend_empty]
  | cons a t =>
    rw [if_pos (by simp : 1 < (r0 :: a :: t).length),
      if_neg (by simp : ¬ ((a :: t : List (List String)).length = 0)),
      List.getLast?_cons_cons]
    simp [String.append_assoc]

theorem formatCell_trunc (cell : String) (h : 18 < (jsTrim cell).length) :
    formatCell cell = jsSubstring (jsTrim cell) 15 ++ "..." := by
  unfold formatCell
  rw [if_pos h]

theorem formatCell_le (cell : String) : (formatCell cell).length ≤ 18 := by
  unfold formatCell
  split
  · rename_i h
    rw [strLength_append, jsSubstring_length]
    have h3 : ("..." : String).length = 3 := rfl
    rw [h3]
    omega
  · rename_i h
    omega

theorem padEnd20_len (s : String) (h : s.length ≤ 18) : (padEnd20 s).length = 20 := by
  unfold padEnd20
  rw [strLength_append]
  have hrep : (String.mk (List.replicate (20 - s.length) ' ')).length = 20 - s.length := by
    show (List.replicate (20 - s.length) ' ').length = _
    rw [List.length_replicate]
  rw [hrep]
  omega

/-- **C8.** `extractSimpleTableText` is the trimmed concatenation of the
sheet blocks; every sheet with at least one row renders as its header-row
table line, a separator line after the header, the remaining rows' table
lines, a separator (bottom border) after the final row whenever the sheet
has more than one row (with exactly one row, the single separator sits after
that row, which is both header and final row), preceded by a sheet-name
banner exactly when the workbook has more than one sheet; every table line
joins the first six cells, each formatted and padded; a cell whose trimmed
text exceeds 18 characters is truncated to 15 characters plus an ellipsis;
and every padded cell has the uniform column width 20. -/
theorem claim_C8 :
    (∀ sheets : List (String × List (List String)),
        extractSimpleTableText sheets
          = jsTrim (strJoin (sheets.map (fun s => sheetText (1 < sheets.length) s.1 s.2))))
    ∧ (∀ (multi : Bool) (name : String) (r0 : List String) (rest : List (List String)),
        (∀ r ∈ r0 :: rest, r ≠ []) →
        sheetText multi name (r0 :: rest)
          = (if multi then "\n=== Sheet: " ++ name ++ " ===\n\n" else "")
            ++ (renderRow r0 ++ (sepRow r0 ++ (strJoin (rest.map renderRow)
                ++ ((if rest.length = 0 then "" else sepRow ((rest.getLast?).getD []))
                    ++ "\n")))))
    ∧ (∀ row, renderRow row = "| " ++ String.intercalate "| "
          ((row.take 6).map (fun c => padEnd20 (formatCell c))) ++ "|\n")
    ∧ (∀ cell, 18 < (jsTrim cell).length →
        formatCell cell = jsSubstring (jsTrim cell) 15 ++ "...")
    ∧ (∀ cell, (padEnd20 (formatCell cell)).length = 20) :=
  ⟨fun _ => rfl,
   sheetText_decomp,
   fun _ => rfl,
   formatCell_trunc,
   fun c => padEnd20_len _ (formatCell_le c)⟩

/-- Concrete instantiation of `claim_C8`. -/
theorem claim_C8_witness :
    (∀ r ∈ [["a"], ["b"]], r ≠ ([] : List String))
    ∧ sheetText true "S" [["a"], ["b"]]
        = (if (true : Bool) then "\n=== Sheet: " ++ "S" ++ " ===\n\n" else "")
          ++ (renderRow ["a"] ++ (sepRow ["a"] ++ (strJoin ([["b"]].map renderRow)
              ++ ((if ([["b"]] : List (List String)).length = 0 then ""
                    else sepRow (([["b"]] : List (List String)).getLast?.getD []))
                  ++ "\n"))))
    ∧ 18 < (jsTrim "cell value longer than eighteen").length
    ∧ formatCell "cell value longer than eighteen"
        = jsSubstring (jsTrim "cell value longer than eighteen") 15 ++ "..." :=
  ⟨by decide,
   claim_C8.2.1 true "S" ["a"] [["b"]] (by decide),
   by decide,
   claim_C8.2.2.2.1 "cell value longer than eighteen" (by decide)⟩

/-! ### Key-encoding theorems (C5, C9) -/

theorem hexVal_hexDigitU : ∀ n < 16, hexVal (hexDigitU n) = some n := by decide

/-- Decoding steps over an ordinary (non-`%`) character. -/
theorem percentDecode_cons (c : Char) (hc : c ≠ '%') (R : List Char) :
    percentDecode (c :: R) = (percentDecode R).map (fun l => c :: l) := by
  match R with
  | [] => simp [percentDecode, hc]
  | [h1] => simp [percentDecode, hc]
  | h1 :: h2 :: rest2 => simp [percentDecode, hc]

/-- Decoding steps over one `%XX` triple of an ASCII byte. -/
theorem percentDecode_percentByte (b : Nat) (hb : b < 128) (R : List Char) :
    percentDecode (percentByte b ++ R)
      = (percentDecode R).map (fun l => Char.ofNat b :: l) := by
  show percentDecode ('%' :: hexDigitU (b / 16) :: hexDigitU (b % 16) :: R) = _
  rw [percentDecode]
  rw [if_pos rfl]
  rw [hexVal_hexDigitU (b / 16) (by omega), hexVal_hexDigitU (b % 16) (by omega)]
  dsimp only
  rw [show b / 16 * 16 + b % 16 = b from by omega]
  rw [if_pos hb]

/-- Percent-decoding is the identity on `%`-free text. -/
theorem percentDecode_id (l : List Char) (h : ∀ c ∈ l, c ≠ '%') :
    percentDecode l = some l := by
  induction l with
  | nil => rfl
  | cons c rest ih =>
    rw [percentDecode_cons c (h c (List.mem_cons_self _ _)) rest,
      ih (fun x hx => h x (List.mem_cons_of_mem _ hx))]
    rfl

theorem splitSlash_ne_nil (l : List Char) : splitSlash l ≠ [] := by
  cases l with
  | nil => simp [splitSlash]
  | cons c rest =>
    by_cases hc : c = '/'
    · simp [splitSlash, hc]
    · simp only [splitSlash, if_neg hc]
      cases splitSlash rest <;> simp

theorem joinSlash_cons (x : List Char) (ps : List (List Char)) (h : ps ≠ []) :
    joinSlash (x :: ps) = x ++ '/' :: joinSlash ps := by
  cases ps with
  | nil => exact absurd rfl h
  | cons p ps' => rfl

theorem joinSlash_append_head (a p : List Char) (ps : List (List Char)) :
    joinSlash ((a ++ p) :: ps) = a ++ joinSlash (p :: ps) := by
  cases ps with
  | nil => rfl
  | cons q qs =>
    rw [joinSlash_cons (a ++ p) (q :: qs) (by simp),
      joinSlash_cons p (q :: qs) (by simp), List.append_assoc]

/-- Fusing the split/encode/join pipeline into one pass over the
characters. -/
theorem encodeS3Key_flat (l : List Char) :
    joinSlash ((splitSlash l).map (fun part => (part.map s3EncodeChar).flatten))
      = (l.map encKeyChar).flatten := by
  induction l with
  | nil => rfl
  | cons c rest ih =>
    by_cases hc : c = '/'
    · subst hc
      have hne : (splitSlash rest).map (fun part => (part.map s3EncodeChar).flatten)
          ≠ [] := by
        intro hnil
        exact splitSlash_ne_nil rest (List.map_eq_nil_iff.mp hnil)
      simp only [splitSlash, if_true, List.map_cons, List.map_nil, List.flatten_nil]
      rw [joinSlash_cons []
        ((splitSlash rest).map (fun part => (part.map s3EncodeChar).flatten)) hne, ih]
      simp [encKeyChar]
    · obtain ⟨p, ps, hps⟩ : ∃ p ps, splitSlash rest = p :: ps := by
        cases h : splitSlash rest with
        | nil => exact absurd h (splitSlash_ne_nil rest)
        | cons p ps => exact ⟨p, ps, rfl⟩
      have hsplit : splitSlash (c :: rest) = (c :: p) :: ps := by
        simp only [splitSlash, if_neg hc, hps]
      rw [hsplit]
      simp only [List.map_cons, List.flatten_cons]
      rw [joinSlash_append_head]
      have hjoin : ((p.map s3EncodeChar).flatten
            :: ps.map (fun part => (part.map s3EncodeChar).flatten))
          = (splitSlash rest).map (fun part => (part.map s3EncodeChar).flatten) := by
        rw [hps, List.map_cons]
      rw [hjoin, ih]
      simp [encKeyChar, hc]

theorem allowed_ne_percent : ∀ c ∈ allowedKeyChars, c ≠ '%' := by decide

theorem allowed_lt128 : ∀ c ∈ allowedKeyChars, c.toNat < 128 := by decide

theorem kept_ne_percent (c : Char) (h : keptChar c = true) : c ≠ '%' := by
  intro he
  rw [he] at h
  exact absurd h (by decide)

/-- Decoding the per-character encoding recovers the original text. -/
theorem percentDecode_encKey (l : List Char) (h : ∀ c ∈ l, c ∈ allowedKeyChars) :
    percentDecode ((l.map encKeyChar).flatten) = some l := by
  induction l with
  | nil => rfl
  | cons c rest ih =>
    have hrest := ih (fun x hx => h x (List.mem_cons_of_mem _ hx))
    have hcmem := h c (List.mem_cons_self _ _)
    simp only [List.map_cons, List.flatten_cons]
    by_cases hslash : c = '/'
    · subst hslash
      rw [show encKeyChar '/' = ['/'] from rfl]
      rw [show (['/'] ++ (rest.map encKeyChar).flatten)
          = '/' :: (rest.map encKeyChar).flatten from rfl]
      rw [percentDecode_cons _ (by decide) _, hrest]
      rfl
    · by_cases hkept : keptChar c = true
      · have henc : encKeyChar c = [c] := by
          simp [encKeyChar, hslash, s3EncodeChar, hkept]
        rw [henc]
        rw [show ([c] ++ (rest.map encKeyChar).flatten)
            = c :: (rest.map encKeyChar).flatten from rfl]
        rw [percentDecode_cons _ (kept_ne_percent c hkept) _, hrest]
        rfl
      · have hlt : c.toNat < 128 := allowed_lt128 c hcmem
        have henc : encKeyChar c = percentByte c.toNat := by
          simp [encKeyChar, hslash, s3EncodeChar, hkept, utf8Bytes, hlt]
        rw [henc, percentDecode_percentByte c.toNat hlt, hrest]
        simp [Char.ofNat_toNat]

/-- No output character of the per-character encoding is a literal `+`. -/
theorem encKey_no_plus : ∀ c₀ ∈ allowedKeyChars, ∀ c ∈ encKeyChar c₀, c ≠ '+' := by
  decide

/-- **C5.** For every key over the unreserved ASCII characters, `/`, and the
reserved characters space `( ) [ ] \x7b \x7d # ? & = +`: percent-decoding the
output of `encodeS3Key` yields the original key; the output contains no
literal `+`; every space is encoded as the three characters `%20`; and the
output is exactly the concatenation of the per-character encodings (so each
space of the key appears in the output as its own `%20`). -/
theorem claim_C5 (key : String) (hkey : ∀ c ∈ key.data, c ∈ allowedKeyChars) :
    percentDecode (encodeS3Key key).data = some key.data
    ∧ (∀ c ∈ (encodeS3Key key).data, c ≠ '+')
    ∧ s3EncodeChar ' ' = ['%', '2', '0']
    ∧ (encodeS3Key key).data = (key.data.map encKeyChar).flatten := by
  have hnoperc : ∀ c ∈ key.data, c ≠ '%' :=
    fun c hc => allowed_ne_percent c (hkey c hc)
  have hdec : percentDecode key.data = some key.data := percentDecode_id _ hnoperc
  have hflat : (encodeS3Key key).data = (key.data.map encKeyChar).flatten := by
    show (String.mk (joinSlash ((splitSlash
        (match percentDecode key.data with
          | some d => d
          | none => key.data)).map
        (fun part => (part.map s3EncodeChar).flatten)))).data
      = (key.data.map encKeyChar).flatten
    rw [hdec]
    exact encodeS3Key_flat key.data
  refine ⟨?_, ?_, by decide, hflat⟩
  · rw [hflat]
    exact percentDecode_encKey key.data hkey
  · intro c hc
    rw [hflat] at hc
    rw [List.mem_flatten] at hc
    obtain ⟨s, hs, hcs⟩ := hc
    rw [List.mem_map] at hs
    obtain ⟨c₀, hc₀, rfl⟩ := hs
    exact encKey_no_plus c₀ (hkey c₀ hc₀) c hcs

/-- Concrete instantiation of `claim_C5`. -/
theorem claim_C5_witness :
    (∀ c ∈ ("reports/My File (v2).docx" : String).data, c ∈ allowedKeyChars)
    ∧ (percentDecode (encodeS3Key "reports/My File (v2).docx").data
        = some ("reports/My File (v2).docx" : String).data
      ∧ (∀ c ∈ (encodeS3Key "reports/My File (v2).docx").data, c ≠ '+')
      ∧ s3EncodeChar ' ' = ['%', '2', '0']
      ∧ (encodeS3Key "reports/My File (v2).docx").data
          = (("reports/My File (v2).docx" : String).data.map encKeyChar).flatten) :=
  ⟨by decide, claim_C5 "reports/My File (v2).docx" (by decide)⟩

/-- **C9.** `encodeS3Key` on the key `"My File (v2).docx"` returns exactly
`"My%20File%20%28v2%29.docx"`. -/
theorem claim_C9 : encodeS3Key "My File (v2).docx" = "My%20File%20%28v2%29.docx" := by
  decide

/-! ### Signing theorems (C6) -/

theorem sha256Bytes_len (msg : List Nat) : (sha256Bytes msg).length = 32 := rfl

theorem digestBytes_lt (st : Sha256State) : ∀ b ∈ digestBytes st, b < 256 := by
  intro b hb
  simp only [digestBytes, List.mem_flatten] at hb
  obtain ⟨l, hl, hbl⟩ := hb
  rw [List.mem_map] at hl
  obtain ⟨w, hw, rfl⟩ := hl
  simp only [toB4, List.mem_cons, List.not_mem_nil, or_false] at hbl
  rcases hbl with rfl | rfl | rfl | rfl
  · exact Nat.mod_lt _ (by omega)
  · exact Nat.mod_lt _ (by omega)
  · exact Nat.mod_lt _ (by omega)
  · exact Nat.mod_lt _ (by omega)

theorem sha256Bytes_lt (msg : List Nat) : ∀ b ∈ sha256Bytes msg, b < 256 :=
  digestBytes_lt _

theorem hmac_len (key msg : List Nat) : (hmacSha256 key msg).length = 32 := by
  simp only [hmacSha256]
  exact sha256Bytes_len _

theorem hmac_lt (key msg : List Nat) : ∀ b ∈ hmacSha256 key msg, b < 256 := by
  simp only [hmacSha256]
  exact sha256Bytes_lt _

theorem bytesToNat_lt (l : List Nat) (h : ∀ b ∈ l, b < 256) :
    bytesToNat l < 256 ^ l.length := by
  induction l with
  | nil => simp [bytesToNat]
  | cons b t ih =>
    have hb : b < 256 := h b (List.mem_cons_self _ _)
    have ht := ih (fun x hx => h x (List.mem_cons_of_mem _ hx))
    simp only [bytesToNat, List.length_cons]
    calc b * 256 ^ t.length + bytesToNat t
        < b * 256 ^ t.length + 256 ^ t.length := by omega
      _ = (b + 1) * 256 ^ t.length := by ring
      _ ≤ 256 * 256 ^ t.length := Nat.mul_le_mul_right _ (by omega)
      _ = 256 ^ (t.length + 1) := by ring

theorem bytesToNat_inj : ∀ (l1 l2 : List Nat), l1.length = l2.length →
    (∀ b ∈ l1, b < 256) → (∀ b ∈ l2, b < 256) →
    bytesToNat l1 = bytesToNat l2 → l1 = l2 := by
  intro l1
  induction l1 with
  | nil =>
    intro l2 hlen _ _ _
    cases l2 with
    | nil => rfl
    | cons b t => simp at hlen
  | cons b t ih =>
    intro l2 hlen h1 h2 heq
    cases l2 with
    | nil => simp at hlen
    | cons b' t' =>
      have hlt : t.length = t'.length := by simpa using hlen
      have hbt := bytesToNat_lt t (fun x hx => h1 x (List.mem_cons_of_mem _ hx))
      have hbt' := bytesToNat_lt t' (fun x hx => h2 x (List.mem_cons_of_mem _ hx))
      simp only [bytesToNat] at heq
      rw [hlt] at heq hbt
      have hbb : b = b' := by
        by_contra hne
        rcases Nat.lt_or_ge b b' with hlt2 | hge
        · have hcon : b * 256 ^ t'.length + bytesToNat t
              < b' * 256 ^ t'.length + bytesToNat t' := by
            calc b * 256 ^ t'.length + bytesToNat t
                < b * 256 ^ t'.length + 256 ^ t'.length := by omega
              _ = (b + 1) * 256 ^ t'.length := by ring
              _ ≤ b' * 256 ^ t'.length := Nat.mul_le_mul_right _ (by omega)
              _ ≤ b' * 256 ^ t'.length + bytesToNat t' := by omega
          omega
        · have hgt : b' < b := by omega
          have hcon : b' * 256 ^ t'.length + bytesToNat t'
              < b * 256 ^ t'.length + bytesToNat t := by
            calc b' * 256 ^ t'.length + bytesToNat t'
                < b' * 256 ^ t'.length + 256 ^ t'.length := by omega
              _ = (b' + 1) * 256 ^ t'.length := by ring
              _ ≤ b * 256 ^ t'.length := Nat.mul_le_mul_right _ (by omega)
              _ ≤ b * 256 ^ t'.length + bytesToNat t := by omega
          omega
      subst hbb
      have hr : bytesToNat t = bytesToNat t' := by omega
      rw [ih t' hlt (fun x hx => h1 x (List.mem_cons_of_mem _ hx))
        (fun x hx => h2 x (List.mem_cons_of_mem _ hx)) hr]

/-- By counting, the secret-to-signature map at any fixed request context
cannot be injective: signatures are 32-byte values, secrets are arbitrary
strings, so two distinct secrets share a signature. -/
theorem exists_secret_collision :
    ∃ s1 s2 : String, s1 ≠ s2
      ∧ createPresignedUrlSignature s1 "docs" "a.pdf" "us-east-1" "AKID" "TOK"
          "20260101" "20260101T000000Z" 3600
        = createPresignedUrlSignature s2 "docs" "a.pdf" "us-east-1" "AKID" "TOK"
          "20260101" "20260101T000000Z" 3600 := by
  have hbound : ∀ s : String,
      bytesToNat (hmacSha256 (awsSigningKey s "20260101" "us-east-1" "s3")
        (asciiBytes (stringToSignOf "us-east-1" "s3" "20260101" "20260101T000000Z"
          (presignedCanonicalRequest "docs" "a.pdf" "us-east-1" "AKID" "TOK"
            "20260101" "20260101T000000Z" 3600)))) < 256 ^ 32 := by
    intro s
    have h1 := bytesToNat_lt _ (hmac_lt (awsSigningKey s "20260101" "us-east-1" "s3")
      (asciiBytes (stringToSignOf "us-east-1" "s3" "20260101" "20260101T000000Z"
        (presignedCanonicalRequest "docs" "a.pdf" "us-east-1" "AKID" "TOK"
          "20260101" "20260101T000000Z" 3600))))
    rw [hmac_len] at h1
    exact h1
  obtain ⟨s1, s2, hne, hf⟩ := Finite.exists_ne_map_eq_of_infinite
    (fun s : String =>
      (⟨bytesToNat (hmacSha256 (awsSigningKey s "20260101" "us-east-1" "s3")
          (asciiBytes (stringToSignOf "us-east-1" "s3" "20260101" "20260101T000000Z"
            (presignedCanonicalRequest "docs" "a.pdf" "us-east-1" "AKID" "TOK"
              "20260101" "20260101T000000Z" 3600)))), hbound s⟩ : Fin (256 ^ 32)))
  refine ⟨s1, s2, hne, ?_⟩
  have hval := congrArg Fin.val hf
  simp only at hval
  have hbytes := bytesToNat_inj _ _ (by rw [hmac_len, hmac_len])
    (hmac_lt _ _) (hmac_lt _ _) hval
  exact congrArg bytesToHex hbytes

/-- **C6 (counterexample).** The claim as stated — determinism plus: any
change of the secret key, and any one-byte change of the canonical request,
changes the signature — is refuted by counting: the signature is a 32-byte
value while secrets range over all strings, so some two distinct secrets
yield the same signature at the same fixed request. -/
theorem claim_C6_counterexample :
    ¬ ((∀ (secretKey bucket keyName region accessKey sessionToken dateStamp
          amzDate : String) (expires : Nat),
          createPresignedUrl secretKey bucket keyName region accessKey
              sessionToken dateStamp amzDate expires
            = createPresignedUrl secretKey bucket keyName region accessKey
              sessionToken dateStamp amzDate expires)
      ∧ (∀ (s1 s2 bucket keyName region accessKey sessionToken dateStamp
            amzDate : String) (expires : Nat), s1 ≠ s2 →
          createPresignedUrlSignature s1 bucket keyName region accessKey
              sessionToken dateStamp amzDate expires
            ≠ createPresignedUrlSignature s2 bucket keyName region accessKey
              sessionToken dateStamp amzDate expires)
      ∧ (∀ (secretKey region service dateStamp amzDate pre suf : String)
            (c c' : Char), c ≠ c' →
          awsSign secretKey region service dateStamp amzDate
              (pre ++ String.mk [c] ++ suf)
            ≠ awsSign secretKey region service dateStamp amzDate
              (pre ++ String.mk [c'] ++ suf))) := by
  rintro ⟨-, hkey, -⟩
  obtain ⟨s1, s2, hne, heq⟩ := exists_secret_collision
  exact hkey s1 s2 "docs" "a.pdf" "us-east-1" "AKID" "TOK" "20260101"
    "20260101T000000Z" 3600 hne heq

set_option maxRecDepth 1000000 in
set_option maxHeartbeats 4000000 in
/-- **C6 (amended).** With the request timestamp, bucket, key, region and
credentials all fixed, two runs of `createPresignedUrl` and of
`createSignedHeaders`' signature produce identical results (the computation
is a pure function of those inputs); changing the secret key changes the
signature for the representative concrete request below, and changing one
byte of the canonical request changes the signature for the representative
concrete canonical request below — but neither holds for every possible
change: by counting there exist two distinct secrets whose signatures at
the same fixed request coincide. -/
theorem claim_C6 :
    (∀ (secretKey bucket keyName region accessKey sessionToken dateStamp
        amzDate : String) (expires : Nat),
        createPresignedUrl secretKey bucket keyName region accessKey
            sessionToken dateStamp amzDate expires
          = createPresignedUrl secretKey bucket keyName region accessKey
            sessionToken dateStamp amzDate expires
        ∧ createSignedHeadersSignature secretKey "GET" bucket keyName region
            dateStamp amzDate
          = createSignedHeadersSignature secretKey "GET" bucket keyName region
            dateStamp amzDate)
    ∧ createPresignedUrlSignature "secretKeyA" "docs" "a.pdf" "us-east-1"
        "AKID" "TOK" "20260101" "20260101T000000Z" 3600
      ≠ createPresignedUrlSignature "secretKeyB" "docs" "a.pdf" "us-east-1"
        "AKID" "TOK" "20260101" "20260101T000000Z" 3600
    ∧ awsSign "secret" "us-east-1" "s3" "20260101" "20260101T000000Z"
        ("GET\n/" ++ String.mk ['a'] ++ ".pdf\n\nhost:docs.s3.us-east-1.amazonaws.com\n\nhost\nUNSIGNED-PAYLOAD")
      ≠ awsSign "secret" "us-east-1" "s3" "20260101" "20260101T000000Z"
        ("GET\n/" ++ String.mk ['b'] ++ ".pdf\n\nhost:docs.s3.us-east-1.amazonaws.com\n\nhost\nUNSIGNED-PAYLOAD")
    ∧ (∃ s1 s2 : String, s1 ≠ s2
        ∧ createPresignedUrlSignature s1 "docs" "a.pdf" "us-east-1" "AKID"
            "TOK" "20260101" "20260101T000000Z" 3600
          = createPresignedUrlSignature s2 "docs" "a.pdf" "us-east-1" "AKID"
            "TOK" "20260101" "20260101T000000Z" 3600) := by
  refine ⟨fun _ _ _ _ _ _ _ _ _ => ⟨rfl, rfl⟩, ?_, ?_, exists_secret_collision⟩
  · decide
  · decide

end PdfAnnotation
